import Mathlib

/-!
Verification development for the CCSDS packet header codec, checksum engine
and telecommand builder of this repository (source files ccsds.h and ccsds.c).

The C code is shallowly embedded over natural numbers:

* a C `uint8` store truncates its value modulo 256, a `uint16` store modulo
  65536, exactly where the C conversions do;
* the two header structures `CCSDS_PriHdr_t` (six `uint8` bytes) and
  `CCSDS_CmdSecHdr_t` (one `uint16` word) are Lean structures of naturals;
* the packet buffer is a `List Nat` of bytes; the C cast of the buffer to
  `CCSDS_CommandPacket_t *` is modelled by view/update functions between the
  buffer bytes and the two header structures.  The in-memory layout of the
  `uint16 Command` word of the secondary header depends on the host byte
  order, so those view/update functions take a flag `le` that is `true` on a
  little-endian host and `false` on a big-endian host.  Everything else in
  the code addresses single bytes and is host independent.
-/

/-! ## Data model: the header structures of ccsds.h -/

/-- CCSDS packet primary header (6 bytes), `CCSDS_PriHdr_t` in ccsds.h.
    The two-byte fields `StreamId`, `Sequence`, `Length` are kept as the
    individual `uint8` array entries of the C structure. -/
structure CCSDS_PriHdr_t where
  StreamId0 : Nat
  StreamId1 : Nat
  Sequence0 : Nat
  Sequence1 : Nat
  Length0 : Nat
  Length1 : Nat
deriving Repr, DecidableEq

/-- CCSDS command secondary header (2 bytes), `CCSDS_CmdSecHdr_t` in ccsds.h:
    a single `uint16` word holding checksum (bits 0-7), function code
    (bits 8-14) and the reserved bit 15. -/
structure CCSDS_CmdSecHdr_t where
  Command : Nat
deriving Repr, DecidableEq

/-! ## Field codec: the RD/WR macros of ccsds.h -/

/-- `CCSDS_RD_BITS(word,mask,shift)`: read the bits of `mask` and shift down. -/
def CCSDS_RD_BITS (word mask shift : Nat) : Nat := (word &&& mask) >>> shift

/-- `CCSDS_WR_BITS(word,mask,shift,value)`: merge `value` into the bits of
    `mask`; the result is stored through a `(uint16)` cast. -/
def CCSDS_WR_BITS (word mask shift value : Nat) : Nat :=
  ((word &&& (mask ^^^ 0xFFFF)) ||| ((value &&& (mask >>> shift)) <<< shift)) % 65536

/-- `CCSDS_RD_SID`: whole stream-id word, `(StreamId[0] << 8) + StreamId[1]`. -/
def CCSDS_RD_SID (p : CCSDS_PriHdr_t) : Nat := (p.StreamId0 <<< 8) + p.StreamId1

/-- `CCSDS_WR_SID`: write the whole stream-id word, big-endian. -/
def CCSDS_WR_SID (p : CCSDS_PriHdr_t) (value : Nat) : CCSDS_PriHdr_t :=
  { p with StreamId0 := (value >>> 8) % 256, StreamId1 := (value &&& 0xff) % 256 }

/-- `CCSDS_RD_APID`: application id, the low 11 bits of the stream id. -/
def CCSDS_RD_APID (p : CCSDS_PriHdr_t) : Nat := CCSDS_RD_SID p &&& 0x07FF

/-- `CCSDS_WR_APID`: write the application id into the stream-id bytes. -/
def CCSDS_WR_APID (p : CCSDS_PriHdr_t) (value : Nat) : CCSDS_PriHdr_t :=
  { p with StreamId0 := ((p.StreamId0 &&& 0xF8) ||| ((value >>> 8) &&& 0x07)) % 256,
           StreamId1 := (value &&& 0xff) % 256 }

/-- `CCSDS_RD_SHDR`: secondary-header-present flag (bit 11 of the word). -/
def CCSDS_RD_SHDR (p : CCSDS_PriHdr_t) : Nat := (p.StreamId0 &&& 0x08) >>> 3

/-- `CCSDS_WR_SHDR`: write the secondary-header-present flag. -/
def CCSDS_WR_SHDR (p : CCSDS_PriHdr_t) (value : Nat) : CCSDS_PriHdr_t :=
  { p with StreamId0 := ((p.StreamId0 &&& 0xf7) ||| ((value <<< 3) &&& 0x08)) % 256 }

/-- `CCSDS_RD_TYPE`: packet type, 0 = TLM, 1 = CMD (bit 12 of the word). -/
def CCSDS_RD_TYPE (p : CCSDS_PriHdr_t) : Nat := (p.StreamId0 &&& 0x10) >>> 4

/-- `CCSDS_WR_TYPE`: write the packet type. -/
def CCSDS_WR_TYPE (p : CCSDS_PriHdr_t) (value : Nat) : CCSDS_PriHdr_t :=
  { p with StreamId0 := ((p.StreamId0 &&& 0xEF) ||| ((value <<< 4) &&& 0x10)) % 256 }

/-- `CCSDS_RD_VERS`: CCSDS version (bits 13-15 of the word). -/
def CCSDS_RD_VERS (p : CCSDS_PriHdr_t) : Nat := (p.StreamId0 &&& 0xE0) >>> 5

/-- `CCSDS_WR_VERS`: write the CCSDS version. -/
def CCSDS_WR_VERS (p : CCSDS_PriHdr_t) (value : Nat) : CCSDS_PriHdr_t :=
  { p with StreamId0 := ((p.StreamId0 &&& 0x1F) ||| ((value <<< 5) &&& 0xE0)) % 256 }

/-- `CCSDS_RD_SEQ`: sequence count, the low 14 bits of the sequence word. -/
def CCSDS_RD_SEQ (p : CCSDS_PriHdr_t) : Nat :=
  ((p.Sequence0 &&& 0x3F) <<< 8) + p.Sequence1

/-- `CCSDS_WR_SEQ`: write the sequence count into the sequence bytes. -/
def CCSDS_WR_SEQ (p : CCSDS_PriHdr_t) (value : Nat) : CCSDS_PriHdr_t :=
  { p with Sequence0 := ((p.Sequence0 &&& 0xC0) ||| ((value >>> 8) &&& 0x3f)) % 256,
           Sequence1 := (value &&& 0xff) % 256 }

/-- `CCSDS_RD_SEQFLG`: segmentation flags (bits 14-15 of the sequence word). -/
def CCSDS_RD_SEQFLG (p : CCSDS_PriHdr_t) : Nat := (p.Sequence0 &&& 0xC0) >>> 6

/-- `CCSDS_WR_SEQFLG`: write the segmentation flags. -/
def CCSDS_WR_SEQFLG (p : CCSDS_PriHdr_t) (value : Nat) : CCSDS_PriHdr_t :=
  { p with Sequence0 := ((p.Sequence0 &&& 0x3F) ||| ((value <<< 6) &&& 0xC0)) % 256 }

/-- `CCSDS_RD_LEN`: total packet length, `(Length[0] << 8) + Length[1] + 7`. -/
def CCSDS_RD_LEN (p : CCSDS_PriHdr_t) : Nat := (p.Length0 <<< 8) + p.Length1 + 7

/-- `CCSDS_WR_LEN`: write the total packet length; the wire field stores
    `value - 7`.  The C subtraction happens on `int`; the builder and the
    claims only use `value ≥ 7`, where `Nat` subtraction agrees with it. -/
def CCSDS_WR_LEN (p : CCSDS_PriHdr_t) (value : Nat) : CCSDS_PriHdr_t :=
  { p with Length0 := ((value - 7) >>> 8) % 256, Length1 := ((value - 7) &&& 0xff) % 256 }

/-- `CCSDS_RD_FC`: command function code (bits 8-14 of the command word). -/
def CCSDS_RD_FC (s : CCSDS_CmdSecHdr_t) : Nat := CCSDS_RD_BITS s.Command 0x7F00 8

/-- `CCSDS_WR_FC`: write the command function code. -/
def CCSDS_WR_FC (s : CCSDS_CmdSecHdr_t) (value : Nat) : CCSDS_CmdSecHdr_t :=
  ⟨CCSDS_WR_BITS s.Command 0x7F00 8 value⟩

/-- `CCSDS_RD_CHECKSUM`: checksum byte (bits 0-7 of the command word). -/
def CCSDS_RD_CHECKSUM (s : CCSDS_CmdSecHdr_t) : Nat := CCSDS_RD_BITS s.Command 0x00FF 0

/-- `CCSDS_WR_CHECKSUM`: write the checksum byte. -/
def CCSDS_WR_CHECKSUM (s : CCSDS_CmdSecHdr_t) (value : Nat) : CCSDS_CmdSecHdr_t :=
  ⟨CCSDS_WR_BITS s.Command 0x00FF 0 value⟩

/-- `CCSDS_CLR_PRI_HDR`: primary header cleared to the canonical initial
    state, with the segmentation flags set to `CCSDS_INIT_SEQFLG << 6`. -/
def CCSDS_CLR_PRI_HDR : CCSDS_PriHdr_t := ⟨0, 0, 3 <<< 6, 0, 0, 0⟩

/-- `CCSDS_CLR_CMDSEC_HDR`: command secondary header cleared,
    `(CCSDS_INIT_CHECKSUM << 0) | (CCSDS_INIT_FC << 8)`. -/
def CCSDS_CLR_CMDSEC_HDR : CCSDS_CmdSecHdr_t := ⟨0⟩

/-! ## The packet buffer

The builder and the checksum engine work on a caller-supplied byte buffer.
A buffer is a `List Nat` of bytes.  The C cast of the buffer to
`CCSDS_CommandPacket_t *` is modelled by view functions reading the header
structures out of the bytes and update functions storing them back.  Bytes
0-5 are the six `uint8` bytes of the primary header; bytes 6-7 hold the
`uint16 Command` word of the secondary header in host byte order, selected
by the flag `le` (`true` on a little-endian host, `false` on a big-endian
host).  The C code updates the header bytes in place through the struct
view; since the clear macros initialize every header byte and no buffer
byte is read back between the header writes, performing the writes on the
struct values and storing them once yields the identical final buffer. -/

/-- Read byte `i` of the buffer (the C raw byte access). -/
def getB (buf : List Nat) (i : Nat) : Nat := buf.getD i 0

/-- Store value `v` into byte `i` of the buffer; a `uint8` store truncates
    modulo 256. -/
def setB (buf : List Nat) (i v : Nat) : List Nat := buf.set i (v % 256)

/-- The primary-header view of the buffer (bytes 0-5). -/
def priOfBuf (buf : List Nat) : CCSDS_PriHdr_t :=
  ⟨getB buf 0, getB buf 1, getB buf 2, getB buf 3, getB buf 4, getB buf 5⟩

/-- The command-secondary-header view of the buffer: bytes 6-7 hold the
    `uint16 Command` word in host byte order. -/
def secOfBuf (le : Bool) (buf : List Nat) : CCSDS_CmdSecHdr_t :=
  ⟨if le then getB buf 6 + 256 * getB buf 7 else 256 * getB buf 6 + getB buf 7⟩

/-- Store the primary header into bytes 0-5 of the buffer. -/
def putPri (buf : List Nat) (p : CCSDS_PriHdr_t) : List Nat :=
  setB (setB (setB (setB (setB (setB buf 0 p.StreamId0) 1 p.StreamId1) 2 p.Sequence0)
    3 p.Sequence1) 4 p.Length0) 5 p.Length1

/-- Store the `uint16 Command` word into bytes 6-7, in host byte order. -/
def putSec (le : Bool) (buf : List Nat) (s : CCSDS_CmdSecHdr_t) : List Nat :=
  if le then setB (setB buf 6 (s.Command % 256)) 7 (s.Command / 256)
  else setB (setB buf 6 (s.Command / 256)) 7 (s.Command % 256)

/-! ## Checksum engine (ccsds.c) -/

/-- The XOR loop of `CCSDS_ComputeCheckSum`: seed `0xFF`, then XOR the first
    `n` bytes of the packet, in order. -/
def xorBytes (buf : List Nat) : Nat → Nat
  | 0 => 0xFF
  | n + 1 => xorBytes buf n ^^^ getB buf n

/-- `CCSDS_ComputeCheckSum`: read the total packet length through
    `CCSDS_RD_LEN` into the `uint16` local `PktLen` (truncating modulo
    65536) and XOR that many bytes of the packet, seed `0xFF`. -/
def CCSDS_ComputeCheckSum (buf : List Nat) : Nat :=
  xorBytes buf (CCSDS_RD_LEN (priOfBuf buf) % 65536)

/-- `CCSDS_ValidCheckSum`: the packet is valid when the XOR reduces to 0. -/
def CCSDS_ValidCheckSum (buf : List Nat) : Bool :=
  CCSDS_ComputeCheckSum buf == 0

/-- `CCSDS_WR_CHECKSUM(PktPtr->Sec, v)` performed through the buffer view:
    the C statement stores the whole 16-bit `Command` word back. -/
def wrChecksumBuf (le : Bool) (buf : List Nat) (v : Nat) : List Nat :=
  putSec le buf (CCSDS_WR_CHECKSUM (secOfBuf le buf) v)

/-- `CCSDS_LoadCheckSum`: clear the checksum field, recompute the checksum
    over the declared length, and store it. -/
def CCSDS_LoadCheckSum (le : Bool) (buf : List Nat) : List Nat :=
  wrChecksumBuf le (wrChecksumBuf le buf 0)
    (CCSDS_ComputeCheckSum (wrChecksumBuf le buf 0))

/-! ## Packet builder (ccsds.c) -/

/-- The payload copy loop of the builder: `DataPtr[i] = Payload[i]` for
    `i = 0 .. n-1`, where `DataPtr = PacketBuf + HeaderSize` (offset 8). -/
def copyPayload (buf Payload : List Nat) : Nat → List Nat
  | 0 => buf
  | n + 1 => setB (copyPayload buf Payload n) (8 + n) (Payload.getD n 0)

/-- `CCSDS_BuildTelecommand` of ccsds.c.  `bufNull` models passing a NULL
    `PacketBuf` and `payNull` a NULL `Payload` pointer; `le` is the host
    byte order used for the `uint16 Command` store.  The result is the final
    buffer contents together with the returned `uint16` total length, which
    is 0 on every rejection path (with the buffer untouched). -/
def CCSDS_BuildTelecommand (le bufNull : Bool) (buf : List Nat)
    (PacketBufSize Apid SeqCount FuncCode : Nat)
    (payNull : Bool) (Payload : List Nat) (PayloadLen : Nat) : List Nat × Nat :=
  if bufNull then (buf, 0)
  else
    let HeaderSize : Nat := 8
    let TotalLen32 : Nat := HeaderSize + PayloadLen
    if TotalLen32 > PacketBufSize ∨ TotalLen32 > 0xFFFF then (buf, 0)
    else
      let TotalLen := TotalLen32
      let pri1 := CCSDS_WR_APID CCSDS_CLR_PRI_HDR Apid
      let pri2 := CCSDS_WR_TYPE pri1 1
      let pri3 := CCSDS_WR_SHDR pri2 1
      let pri4 := CCSDS_WR_VERS pri3 0
      let pri5 := CCSDS_WR_SEQ pri4 SeqCount
      let pri6 := CCSDS_WR_LEN pri5 TotalLen
      let sec1 := CCSDS_WR_FC CCSDS_CLR_CMDSEC_HDR FuncCode
      let buf1 := putSec le (putPri buf pri6) sec1
      let buf2 := if ¬payNull ∧ PayloadLen > 0 then copyPayload buf1 Payload PayloadLen
                  else buf1
      (CCSDS_LoadCheckSum le buf2, TotalLen)

/-- Corrupt a packet by flipping bit `b` of byte `i`.  This is the
    claim-level corruption operation, not part of the C sources. -/
def flipBit (buf : List Nat) (i b : Nat) : List Nat :=
  buf.set i (getB buf i ^^^ (1 <<< b))

/-! ## Bit-arithmetic toolkit -/

/-- Masking with a shifted mask factors through the shift. -/
lemma and_shl_mask (x m k : Nat) : x &&& (m <<< k) = ((x >>> k) &&& m) <<< k := by
  apply Nat.eq_of_testBit_eq
  intro i
  simp only [Nat.testBit_and, Nat.testBit_shiftLeft, Nat.testBit_shiftRight]
  by_cases h : k ≤ i
  · simp [h, Nat.add_sub_cancel' h, Bool.and_left_comm, Bool.and_comm]
  · simp [h]

/-- Left shift then right shift by the same amount is the identity. -/
lemma shl_shr_cancel (x k : Nat) : (x <<< k) >>> k = x := by
  rw [Nat.shiftLeft_eq, Nat.shiftRight_eq_div_pow]
  exact Nat.mul_div_cancel x (Nat.pos_pow_of_pos k (by omega))

lemma and_mask_1 (x : Nat) : x &&& 0x01 = x % 2 := Nat.and_one_is_mod x

lemma and_mask_3 (x : Nat) : x &&& 0x03 = x % 4 := by
  have := Nat.and_pow_two_sub_one_eq_mod x 2; norm_num at this; exact this

lemma and_mask_7 (x : Nat) : x &&& 0x07 = x % 8 := by
  have := Nat.and_pow_two_sub_one_eq_mod x 3; norm_num at this; exact this

lemma and_mask_1F (x : Nat) : x &&& 0x1F = x % 32 := by
  have := Nat.and_pow_two_sub_one_eq_mod x 5; norm_num at this; exact this

lemma and_mask_3F (x : Nat) : x &&& 0x3F = x % 64 := by
  have := Nat.and_pow_two_sub_one_eq_mod x 6; norm_num at this; exact this

lemma and_mask_7F (x : Nat) : x &&& 0x7F = x % 128 := by
  have := Nat.and_pow_two_sub_one_eq_mod x 7; norm_num at this; exact this

lemma and_mask_FF (x : Nat) : x &&& 0xFF = x % 256 := by
  have := Nat.and_pow_two_sub_one_eq_mod x 8; norm_num at this; exact this

lemma and_mask_7FF (x : Nat) : x &&& 0x7FF = x % 2048 := by
  have := Nat.and_pow_two_sub_one_eq_mod x 11; norm_num at this; exact this

lemma and_mask_3FFF (x : Nat) : x &&& 0x3FFF = x % 16384 := by
  have := Nat.and_pow_two_sub_one_eq_mod x 14; norm_num at this; exact this

lemma and_mask_FFFF (x : Nat) : x &&& 0xFFFF = x % 65536 := by
  have := Nat.and_pow_two_sub_one_eq_mod x 16; norm_num at this; exact this

/-- A shifted-up value masked with the matching high mask, in arithmetic form. -/
lemma shl_and_high (v w k : Nat) :
    (v <<< k) &&& ((2 ^ w - 1) <<< k) = (v % 2 ^ w) <<< k := by
  rw [and_shl_mask, shl_shr_cancel, Nat.and_pow_two_sub_one_eq_mod]

/-- Disjoint or is addition: a value below `2^k` ored under a shifted value. -/
lemma shl_or_low (a b k : Nat) (hb : b < 2 ^ k) : (a <<< k) ||| b = a * 2 ^ k + b := by
  rw [Nat.shiftLeft_eq, Nat.mul_comm a (2 ^ k), Nat.mul_add_lt_is_or hb]

/-- A contiguous-run mask, in arithmetic form. -/
lemma and_run (x w k : Nat) :
    x &&& ((2 ^ w - 1) <<< k) = x / 2 ^ k % 2 ^ w * 2 ^ k := by
  rw [and_shl_mask, Nat.shiftRight_eq_div_pow, Nat.and_pow_two_sub_one_eq_mod,
    Nat.shiftLeft_eq]

lemma and_mask_08 (x : Nat) : x &&& 0x08 = x / 8 % 2 * 8 := by
  have h := and_run x 1 3; rw [(by decide : ((2^1 - 1) <<< 3 : Nat) = 0x08)] at h
  simpa using h

lemma and_mask_10 (x : Nat) : x &&& 0x10 = x / 16 % 2 * 16 := by
  have h := and_run x 1 4; rw [(by decide : ((2^1 - 1) <<< 4 : Nat) = 0x10)] at h
  simpa using h

lemma and_mask_C0 (x : Nat) : x &&& 0xC0 = x / 64 % 4 * 64 := by
  have h := and_run x 2 6; rw [(by decide : ((2^2 - 1) <<< 6 : Nat) = 0xC0)] at h
  simpa using h

lemma and_mask_E0 (x : Nat) : x &&& 0xE0 = x / 32 % 8 * 32 := by
  have h := and_run x 3 5; rw [(by decide : ((2^3 - 1) <<< 5 : Nat) = 0xE0)] at h
  simpa using h

lemma and_mask_F8 (x : Nat) : x &&& 0xF8 = x / 8 % 32 * 8 := by
  have h := and_run x 5 3; rw [(by decide : ((2^5 - 1) <<< 3 : Nat) = 0xF8)] at h
  simpa using h

lemma and_mask_7F00 (x : Nat) : x &&& 0x7F00 = x / 256 % 128 * 256 := by
  have h := and_run x 7 8; rw [(by decide : ((2^7 - 1) <<< 8 : Nat) = 0x7F00)] at h
  simpa using h

lemma and_mask_FF00 (x : Nat) : x &&& 0xFF00 = x / 256 % 256 * 256 := by
  have h := and_run x 8 8; rw [(by decide : ((2^8 - 1) <<< 8 : Nat) = 0xFF00)] at h
  simpa using h

lemma and_mask_F (x : Nat) : x &&& 0x0F = x % 16 := by
  have := Nat.and_pow_two_sub_one_eq_mod x 4; norm_num at this; exact this

lemma and_mask_F0 (x : Nat) : x &&& 0xF0 = x / 16 % 16 * 16 := by
  have h := and_run x 4 4; rw [(by decide : ((2^4 - 1) <<< 4 : Nat) = 0xF0)] at h
  simpa using h

lemma and_mask_8000 (x : Nat) : x &&& 0x8000 = x / 32768 % 2 * 32768 := by
  have h := and_run x 1 15; rw [(by decide : ((2^1 - 1) <<< 15 : Nat) = 0x8000)] at h
  simpa using h

/-- Disjoint or below a multiple of a power of two is addition. -/
lemma mul_or_low (a b k : Nat) (hb : b < 2 ^ k) : a * 2 ^ k ||| b = a * 2 ^ k + b := by
  rw [Nat.mul_comm a (2 ^ k)]
  exact (Nat.mul_add_lt_is_or hb a).symm

lemma mul8_or_low (a b : Nat) (hb : b < 8) : a * 8 ||| b = a * 8 + b := by
  have h := mul_or_low a b 3 (by omega); norm_num at h; exact h

lemma mul16_or_low (a b : Nat) (hb : b < 16) : a * 16 ||| b = a * 16 + b := by
  have h := mul_or_low a b 4 (by omega); norm_num at h; exact h

lemma mul32_or_low (a b : Nat) (hb : b < 32) : a * 32 ||| b = a * 32 + b := by
  have h := mul_or_low a b 5 (by omega); norm_num at h; exact h

lemma mul64_or_low (a b : Nat) (hb : b < 64) : a * 64 ||| b = a * 64 + b := by
  have h := mul_or_low a b 6 (by omega); norm_num at h; exact h

lemma mul256_or_low (a b : Nat) (hb : b < 256) : a * 256 ||| b = a * 256 + b := by
  have h := mul_or_low a b 8 (by omega); norm_num at h; exact h

lemma mul32768_or_low (a b : Nat) (hb : b < 32768) : a * 32768 ||| b = a * 32768 + b := by
  have h := mul_or_low a b 15 (by omega); norm_num at h; exact h

/-- The non-contiguous byte mask `0xEF` (all bits of a byte except bit 4). -/
lemma and_mask_EF (x : Nat) : x &&& 0xEF = x % 16 + x / 32 % 8 * 32 := by
  rw [(by decide : (0xEF : Nat) = 0xE0 ||| 0x0F), Nat.and_or_distrib_left,
    and_mask_E0, and_mask_F, mul32_or_low _ _ (by omega)]
  omega

/-- The non-contiguous byte mask `0xF7` (all bits of a byte except bit 3). -/
lemma and_mask_F7 (x : Nat) : x &&& 0xF7 = x % 8 + x / 16 % 16 * 16 := by
  rw [(by decide : (0xF7 : Nat) = 0xF0 ||| 0x07), Nat.and_or_distrib_left,
    and_mask_F0, and_mask_7, mul16_or_low _ _ (by omega)]
  omega

/-- The non-contiguous word mask `0x80FF` (checksum byte plus reserved bit),
    the complement of the function-code mask `0x7F00`. -/
lemma and_mask_80FF (x : Nat) : x &&& 0x80FF = x % 256 + x / 32768 % 2 * 32768 := by
  rw [(by decide : (0x80FF : Nat) = 0x8000 ||| 0xFF), Nat.and_or_distrib_left,
    and_mask_8000, and_mask_FF, mul32768_or_low _ _ (by omega)]
  omega

/-! ## Written byte values in arithmetic form -/

lemma wr_vers_byte (x v : Nat) :
    ((x &&& 0x1F) ||| ((v <<< 5) &&& 0xE0)) % 256 = x % 32 + v % 8 * 32 := by
  rw [and_mask_1F, and_mask_E0, Nat.or_comm, mul32_or_low _ _ (by omega)]
  omega

lemma wr_type_byte (x v : Nat) :
    ((x &&& 0xEF) ||| ((v <<< 4) &&& 0x10)) % 256 =
      x % 16 + x / 32 % 8 * 32 + v % 2 * 16 := by
  rw [(by decide : (0xEF : Nat) = 0xE0 ||| 0x0F), Nat.and_or_distrib_left,
    Nat.or_assoc, Nat.or_comm (x &&& 0x0F) _, and_mask_E0, and_mask_F, and_mask_10,
    mul16_or_low _ _ (by omega), mul32_or_low _ _ (by omega)]
  omega

lemma wr_shdr_byte (x v : Nat) :
    ((x &&& 0xf7) ||| ((v <<< 3) &&& 0x08)) % 256 =
      x % 8 + x / 16 % 16 * 16 + v % 2 * 8 := by
  rw [(by decide : (0xF7 : Nat) = 0xF0 ||| 0x07), Nat.and_or_distrib_left,
    Nat.or_assoc, Nat.or_comm (x &&& 0x07) _, and_mask_F0, and_mask_7, and_mask_08,
    mul8_or_low _ _ (by omega), mul16_or_low _ _ (by omega)]
  omega

lemma wr_apid_byte0 (x v : Nat) :
    ((x &&& 0xF8) ||| ((v >>> 8) &&& 0x07)) % 256 = x / 8 % 32 * 8 + v / 256 % 8 := by
  rw [and_mask_F8, and_mask_7, mul8_or_low _ _ (by omega)]
  omega

lemma wr_seq_byte0 (x v : Nat) :
    ((x &&& 0xC0) ||| ((v >>> 8) &&& 0x3f)) % 256 = x / 64 % 4 * 64 + v / 256 % 64 := by
  rw [and_mask_C0, and_mask_3F, mul64_or_low _ _ (by omega)]
  omega

lemma wr_seqflg_byte0 (x v : Nat) :
    ((x &&& 0x3F) ||| ((v <<< 6) &&& 0xC0)) % 256 = x % 64 + v % 4 * 64 := by
  rw [and_mask_3F, and_mask_C0, Nat.or_comm, mul64_or_low _ _ (by omega)]
  omega

lemma shl8_eq (x : Nat) : x <<< 8 = x * 256 := by
  rw [Nat.shiftLeft_eq]

lemma wr_fc_word (x v : Nat) :
    CCSDS_WR_BITS x 0x7F00 8 v = x / 32768 % 2 * 32768 + v % 128 * 256 + x % 256 := by
  dsimp only [CCSDS_WR_BITS]
  rw [(by decide : ((0x7F00 : Nat) ^^^ 0xFFFF) = 0x8000 ||| 0xFF),
    (by decide : ((0x7F00 : Nat) >>> 8) = 0x7F), Nat.and_or_distrib_left,
    Nat.or_assoc, Nat.or_comm (x &&& 0xFF) _, and_mask_8000, and_mask_FF,
    and_mask_7F, shl8_eq, mul256_or_low _ _ (by omega), mul32768_or_low _ _ (by omega)]
  omega

lemma wr_checksum_word (x v : Nat) :
    CCSDS_WR_BITS x 0x00FF 0 v = x / 256 % 256 * 256 + v % 256 := by
  dsimp only [CCSDS_WR_BITS]
  rw [(by decide : ((0x00FF : Nat) ^^^ 0xFFFF) = 0xFF00),
    (by decide : ((0x00FF : Nat) >>> 0) = 0xFF), Nat.shiftLeft_zero,
    and_mask_FF00, and_mask_FF, mul256_or_low _ _ (by omega)]
  omega

/-! ## Field reads in arithmetic form -/

lemma RD_VERS_arith (p : CCSDS_PriHdr_t) : CCSDS_RD_VERS p = p.StreamId0 / 32 % 8 := by
  dsimp only [CCSDS_RD_VERS]; rw [and_mask_E0]; omega

lemma RD_TYPE_arith (p : CCSDS_PriHdr_t) : CCSDS_RD_TYPE p = p.StreamId0 / 16 % 2 := by
  dsimp only [CCSDS_RD_TYPE]; rw [and_mask_10]; omega

lemma RD_SHDR_arith (p : CCSDS_PriHdr_t) : CCSDS_RD_SHDR p = p.StreamId0 / 8 % 2 := by
  dsimp only [CCSDS_RD_SHDR]; rw [and_mask_08]; omega

lemma RD_APID_arith (p : CCSDS_PriHdr_t) :
    CCSDS_RD_APID p = (p.StreamId0 * 256 + p.StreamId1) % 2048 := by
  dsimp only [CCSDS_RD_APID, CCSDS_RD_SID]; rw [and_mask_7FF]; omega

lemma RD_SEQ_arith (p : CCSDS_PriHdr_t) :
    CCSDS_RD_SEQ p = p.Sequence0 % 64 * 256 + p.Sequence1 := by
  dsimp only [CCSDS_RD_SEQ]; rw [and_mask_3F]; omega

lemma RD_SEQFLG_arith (p : CCSDS_PriHdr_t) : CCSDS_RD_SEQFLG p = p.Sequence0 / 64 % 4 := by
  dsimp only [CCSDS_RD_SEQFLG]; rw [and_mask_C0]; omega

lemma RD_LEN_arith (p : CCSDS_PriHdr_t) :
    CCSDS_RD_LEN p = p.Length0 * 256 + p.Length1 + 7 := by
  dsimp only [CCSDS_RD_LEN]; omega

lemma RD_FC_arith (s : CCSDS_CmdSecHdr_t) : CCSDS_RD_FC s = s.Command / 256 % 128 := by
  dsimp only [CCSDS_RD_FC, CCSDS_RD_BITS]; rw [and_mask_7F00]; omega

lemma RD_CHECKSUM_arith (s : CCSDS_CmdSecHdr_t) : CCSDS_RD_CHECKSUM s = s.Command % 256 := by
  dsimp only [CCSDS_RD_CHECKSUM, CCSDS_RD_BITS]; rw [and_mask_FF, Nat.shiftRight_zero]

/-! ## Write-then-read truncation laws -/

lemma rd_wr_vers (p : CCSDS_PriHdr_t) (v : Nat) :
    CCSDS_RD_VERS (CCSDS_WR_VERS p v) = v % 8 := by
  rw [RD_VERS_arith]; dsimp only [CCSDS_WR_VERS]; rw [wr_vers_byte]; omega

lemma rd_wr_type (p : CCSDS_PriHdr_t) (v : Nat) :
    CCSDS_RD_TYPE (CCSDS_WR_TYPE p v) = v % 2 := by
  rw [RD_TYPE_arith]; dsimp only [CCSDS_WR_TYPE]; rw [wr_type_byte]; omega

lemma rd_wr_shdr (p : CCSDS_PriHdr_t) (v : Nat) :
    CCSDS_RD_SHDR (CCSDS_WR_SHDR p v) = v % 2 := by
  rw [RD_SHDR_arith]; dsimp only [CCSDS_WR_SHDR]; rw [wr_shdr_byte]; omega

lemma rd_wr_apid (p : CCSDS_PriHdr_t) (v : Nat) :
    CCSDS_RD_APID (CCSDS_WR_APID p v) = v % 2048 := by
  rw [RD_APID_arith]; dsimp only [CCSDS_WR_APID]
  rw [wr_apid_byte0, and_mask_FF]; omega

lemma rd_wr_seq (p : CCSDS_PriHdr_t) (v : Nat) :
    CCSDS_RD_SEQ (CCSDS_WR_SEQ p v) = v % 16384 := by
  rw [RD_SEQ_arith]; dsimp only [CCSDS_WR_SEQ]
  rw [wr_seq_byte0, and_mask_FF]; omega

lemma rd_wr_seqflg (p : CCSDS_PriHdr_t) (v : Nat) :
    CCSDS_RD_SEQFLG (CCSDS_WR_SEQFLG p v) = v % 4 := by
  rw [RD_SEQFLG_arith]; dsimp only [CCSDS_WR_SEQFLG]; rw [wr_seqflg_byte0]; omega

lemma rd_wr_len (p : CCSDS_PriHdr_t) (v : Nat) (h7 : 7 ≤ v) (hmax : v ≤ 65535) :
    CCSDS_RD_LEN (CCSDS_WR_LEN p v) = v := by
  rw [RD_LEN_arith]; dsimp only [CCSDS_WR_LEN]; rw [and_mask_FF]; omega

lemma rd_wr_fc (s : CCSDS_CmdSecHdr_t) (v : Nat) :
    CCSDS_RD_FC (CCSDS_WR_FC s v) = v % 128 := by
  rw [RD_FC_arith]; dsimp only [CCSDS_WR_FC]; rw [wr_fc_word]; omega

lemma rd_wr_checksum (s : CCSDS_CmdSecHdr_t) (v : Nat) :
    CCSDS_RD_CHECKSUM (CCSDS_WR_CHECKSUM s v) = v % 256 := by
  rw [RD_CHECKSUM_arith]; dsimp only [CCSDS_WR_CHECKSUM]; rw [wr_checksum_word]; omega

/-! ## Frame effect of the write accessors -/

lemma frame_vers (p : CCSDS_PriHdr_t) (v : Nat) :
    (CCSDS_WR_VERS p v).StreamId0 &&& 0x1F = p.StreamId0 &&& 0x1F := by
  dsimp only [CCSDS_WR_VERS]; rw [wr_vers_byte, and_mask_1F, and_mask_1F]; omega

lemma frame_type (p : CCSDS_PriHdr_t) (v : Nat) :
    (CCSDS_WR_TYPE p v).StreamId0 &&& 0xEF = p.StreamId0 &&& 0xEF := by
  dsimp only [CCSDS_WR_TYPE]; rw [wr_type_byte, and_mask_EF, and_mask_EF]; omega

lemma frame_shdr (p : CCSDS_PriHdr_t) (v : Nat) :
    (CCSDS_WR_SHDR p v).StreamId0 &&& 0xf7 = p.StreamId0 &&& 0xf7 := by
  dsimp only [CCSDS_WR_SHDR]; rw [wr_shdr_byte, and_mask_F7, and_mask_F7]; omega

lemma frame_apid (p : CCSDS_PriHdr_t) (v : Nat) :
    (CCSDS_WR_APID p v).StreamId0 &&& 0xF8 = p.StreamId0 &&& 0xF8 := by
  dsimp only [CCSDS_WR_APID]; rw [wr_apid_byte0, and_mask_F8, and_mask_F8]; omega

lemma frame_seq (p : CCSDS_PriHdr_t) (v : Nat) :
    (CCSDS_WR_SEQ p v).Sequence0 &&& 0xC0 = p.Sequence0 &&& 0xC0 := by
  dsimp only [CCSDS_WR_SEQ]; rw [wr_seq_byte0, and_mask_C0, and_mask_C0]; omega

lemma frame_seqflg (p : CCSDS_PriHdr_t) (v : Nat) :
    (CCSDS_WR_SEQFLG p v).Sequence0 &&& 0x3F = p.Sequence0 &&& 0x3F := by
  dsimp only [CCSDS_WR_SEQFLG]; rw [wr_seqflg_byte0, and_mask_3F, and_mask_3F]; omega

lemma frame_fc (s : CCSDS_CmdSecHdr_t) (v : Nat) :
    (CCSDS_WR_FC s v).Command &&& 0x80FF = s.Command &&& 0x80FF := by
  dsimp only [CCSDS_WR_FC]; rw [wr_fc_word, and_mask_80FF, and_mask_80FF]; omega

lemma frame_checksum (s : CCSDS_CmdSecHdr_t) (v : Nat) :
    (CCSDS_WR_CHECKSUM s v).Command &&& 0xFF00 = s.Command &&& 0xFF00 := by
  dsimp only [CCSDS_WR_CHECKSUM]; rw [wr_checksum_word, and_mask_FF00, and_mask_FF00]
  omega

/-- Claim C5.  For every header field accessor pair (version, type,
    secondary-header flag, application id, sequence flags, sequence count,
    function code, checksum) and every input value `v`, writing `v` to a field
    of bit width `w` and reading the same field back yields `v mod 2^w`, for
    all `v` including values wider than `w`. -/
theorem field_truncation_law (p : CCSDS_PriHdr_t) (s : CCSDS_CmdSecHdr_t) (v : Nat) :
    CCSDS_RD_VERS (CCSDS_WR_VERS p v) = v % 2 ^ 3 ∧
    CCSDS_RD_TYPE (CCSDS_WR_TYPE p v) = v % 2 ^ 1 ∧
    CCSDS_RD_SHDR (CCSDS_WR_SHDR p v) = v % 2 ^ 1 ∧
    CCSDS_RD_APID (CCSDS_WR_APID p v) = v % 2 ^ 11 ∧
    CCSDS_RD_SEQFLG (CCSDS_WR_SEQFLG p v) = v % 2 ^ 2 ∧
    CCSDS_RD_SEQ (CCSDS_WR_SEQ p v) = v % 2 ^ 14 ∧
    CCSDS_RD_FC (CCSDS_WR_FC s v) = v % 2 ^ 7 ∧
    CCSDS_RD_CHECKSUM (CCSDS_WR_CHECKSUM s v) = v % 2 ^ 8 := by
  refine ⟨?_, ?_, ?_, ?_, ?_, ?_, ?_, ?_⟩
  · rw [rd_wr_vers]; norm_num
  · rw [rd_wr_type]; norm_num
  · rw [rd_wr_shdr]; norm_num
  · rw [rd_wr_apid]; norm_num
  · rw [rd_wr_seqflg]; norm_num
  · rw [rd_wr_seq]; norm_num
  · rw [rd_wr_fc]; norm_num
  · rw [rd_wr_checksum]; norm_num

/-- Claim C6.  For every `x` in `[7, 65535]`, writing the total length `x`
    with `CCSDS_WR_LEN` (which stores `x - 7` on the wire) and then reading it
    back with `CCSDS_RD_LEN` (which adds the 7 back) returns exactly `x`. -/
theorem length_roundTrip (p : CCSDS_PriHdr_t) (x : Nat) (h7 : 7 ≤ x) (hmax : x ≤ 65535) :
    CCSDS_RD_LEN (CCSDS_WR_LEN p x) = x :=
  rd_wr_len p x h7 hmax

/-- Witness for `length_roundTrip` at `x = 18` on a cleared header. -/
theorem length_roundTrip_witness :
    7 ≤ 18 ∧ 18 ≤ 65535 ∧ CCSDS_RD_LEN (CCSDS_WR_LEN CCSDS_CLR_PRI_HDR 18) = 18 :=
  ⟨by decide, by decide, length_roundTrip CCSDS_CLR_PRI_HDR 18 (by decide) (by decide)⟩

/-- Claim C8.  Every field write accessor modifies only the bits of its own
    declared field: all structure components it does not declare are returned
    unchanged, and within the byte or word it writes, the bits outside the
    field mask keep their previous value.  In particular `CCSDS_WR_FC`
    preserves the reserved bit 15 and the checksum byte (mask `0x80FF`) of the
    command secondary header exactly. -/
theorem write_frame_effect (p : CCSDS_PriHdr_t) (s : CCSDS_CmdSecHdr_t) (v : Nat) :
    (CCSDS_WR_VERS p v = { p with StreamId0 := (CCSDS_WR_VERS p v).StreamId0 } ∧
      (CCSDS_WR_VERS p v).StreamId0 &&& 0x1F = p.StreamId0 &&& 0x1F) ∧
    (CCSDS_WR_TYPE p v = { p with StreamId0 := (CCSDS_WR_TYPE p v).StreamId0 } ∧
      (CCSDS_WR_TYPE p v).StreamId0 &&& 0xEF = p.StreamId0 &&& 0xEF) ∧
    (CCSDS_WR_SHDR p v = { p with StreamId0 := (CCSDS_WR_SHDR p v).StreamId0 } ∧
      (CCSDS_WR_SHDR p v).StreamId0 &&& 0xf7 = p.StreamId0 &&& 0xf7) ∧
    (CCSDS_WR_APID p v = { p with StreamId0 := (CCSDS_WR_APID p v).StreamId0,
                                  StreamId1 := (CCSDS_WR_APID p v).StreamId1 } ∧
      (CCSDS_WR_APID p v).StreamId0 &&& 0xF8 = p.StreamId0 &&& 0xF8) ∧
    (CCSDS_WR_SEQ p v = { p with Sequence0 := (CCSDS_WR_SEQ p v).Sequence0,
                                 Sequence1 := (CCSDS_WR_SEQ p v).Sequence1 } ∧
      (CCSDS_WR_SEQ p v).Sequence0 &&& 0xC0 = p.Sequence0 &&& 0xC0) ∧
    (CCSDS_WR_SEQFLG p v = { p with Sequence0 := (CCSDS_WR_SEQFLG p v).Sequence0 } ∧
      (CCSDS_WR_SEQFLG p v).Sequence0 &&& 0x3F = p.Sequence0 &&& 0x3F) ∧
    (CCSDS_WR_LEN p v = { p with Length0 := (CCSDS_WR_LEN p v).Length0,
                                 Length1 := (CCSDS_WR_LEN p v).Length1 }) ∧
    ((CCSDS_WR_FC s v).Command &&& 0x80FF = s.Command &&& 0x80FF) ∧
    ((CCSDS_WR_CHECKSUM s v).Command &&& 0xFF00 = s.Command &&& 0xFF00) := by
  refine ⟨⟨rfl, frame_vers p v⟩, ⟨rfl, frame_type p v⟩, ⟨rfl, frame_shdr p v⟩,
    ⟨rfl, frame_apid p v⟩, ⟨rfl, frame_seq p v⟩, ⟨rfl, frame_seqflg p v⟩,
    rfl, frame_fc s v, frame_checksum s v⟩


/-! ## Buffer access lemmas -/

lemma getB_set (buf : List Nat) (j v i : Nat) :
    getB (buf.set j v) i = if j = i ∧ j < buf.length then v else getB buf i := by
  dsimp only [getB]
  rw [List.getD_eq_getElem?_getD, List.getD_eq_getElem?_getD, List.getElem?_set]
  by_cases h : j = i
  · subst h
    by_cases hl : j < buf.length
    · simp [hl]
    · simp only [hl, if_false, if_true, and_false]
      rw [List.getElem?_eq_none (by omega)]
  · simp [h]

lemma getB_setB (buf : List Nat) (j v i : Nat) :
    getB (setB buf j v) i = if j = i ∧ j < buf.length then v % 256 else getB buf i :=
  getB_set buf j (v % 256) i

lemma length_setB (buf : List Nat) (i v : Nat) : (setB buf i v).length = buf.length := by
  simp [setB]

lemma length_putPri (buf : List Nat) (p : CCSDS_PriHdr_t) :
    (putPri buf p).length = buf.length := by
  simp [putPri, setB]

lemma length_putSec (le : Bool) (buf : List Nat) (s : CCSDS_CmdSecHdr_t) :
    (putSec le buf s).length = buf.length := by
  cases le <;> simp [putSec, setB]

lemma length_copyPayload (buf pay : List Nat) (n : Nat) :
    (copyPayload buf pay n).length = buf.length := by
  induction n with
  | zero => rfl
  | succ n ih => simp [copyPayload, setB, ih]

lemma length_wrChecksumBuf (le : Bool) (buf : List Nat) (v : Nat) :
    (wrChecksumBuf le buf v).length = buf.length := by
  simp [wrChecksumBuf, length_putSec]

lemma length_loadCheckSum (le : Bool) (buf : List Nat) :
    (CCSDS_LoadCheckSum le buf).length = buf.length := by
  simp [CCSDS_LoadCheckSum, length_wrChecksumBuf]

lemma getB_putPri (buf : List Nat) (p : CCSDS_PriHdr_t) (i : Nat) :
    getB (putPri buf p) i =
      if i ≤ 5 ∧ i < buf.length then
        (if i = 0 then p.StreamId0 else if i = 1 then p.StreamId1
         else if i = 2 then p.Sequence0 else if i = 3 then p.Sequence1
         else if i = 4 then p.Length0 else p.Length1) % 256
      else getB buf i := by
  dsimp only [putPri]
  simp only [getB_setB, length_setB]
  split_ifs <;> first | rfl | omega

lemma getB_putSec (le : Bool) (buf : List Nat) (s : CCSDS_CmdSecHdr_t) (i : Nat) :
    getB (putSec le buf s) i =
      if i = 6 ∧ i < buf.length then
        (if le then s.Command else s.Command / 256) % 256
      else if i = 7 ∧ i < buf.length then
        (if le then s.Command / 256 else s.Command) % 256
      else getB buf i := by
  cases le <;>
    · dsimp only [putSec]
      simp only [if_true, if_false, Bool.false_eq_true]
      simp only [getB_setB, length_setB]
      split_ifs <;> first | rfl | omega

lemma getB_copyPayload (buf pay : List Nat) (n i : Nat) :
    getB (copyPayload buf pay n) i =
      if 8 ≤ i ∧ i < 8 + n ∧ i < buf.length then pay.getD (i - 8) 0 % 256
      else getB buf i := by
  induction n with
  | zero =>
    dsimp only [copyPayload]
    split_ifs with h
    · omega
    · rfl
  | succ n ih =>
    dsimp only [copyPayload]
    rw [getB_setB, length_copyPayload]
    by_cases h : 8 + n = i ∧ 8 + n < buf.length
    · have hd : i - 8 = n := by omega
      rw [if_pos h, if_pos (by omega), hd]
    · rw [if_neg h, ih]
      split_ifs <;> first | rfl | omega

/-! ## XOR checksum lemmas -/

lemma xor_rotate (a b c : Nat) : a ^^^ b ^^^ c = a ^^^ c ^^^ b := by
  rw [Nat.xor_assoc, Nat.xor_comm b c, ← Nat.xor_assoc]

lemma xorBytes_congr (b1 b2 : List Nat) (n : Nat)
    (h : ∀ i, i < n → getB b1 i = getB b2 i) : xorBytes b1 n = xorBytes b2 n := by
  induction n with
  | zero => rfl
  | succ n ih =>
    dsimp only [xorBytes]
    rw [ih (fun i hi => h i (by omega)), h n (by omega)]

lemma xorBytes_lt_256 (buf : List Nat) (n : Nat)
    (h : ∀ i, i < n → getB buf i < 256) : xorBytes buf n < 256 := by
  induction n with
  | zero => dsimp only [xorBytes]; decide
  | succ n ih =>
    dsimp only [xorBytes]
    have h1 := ih (fun i hi => h i (by omega))
    have h2 := h n (by omega)
    have h3 := @Nat.xor_lt_two_pow (xorBytes buf n) (getB buf n) 8 (by omega) (by omega)
    omega

lemma xorBytes_set (buf : List Nat) (i v n : Nat) (hin : i < n) (hil : i < buf.length) :
    xorBytes (buf.set i v) n = xorBytes buf n ^^^ getB buf i ^^^ v := by
  induction n with
  | zero => omega
  | succ n ih =>
    dsimp only [xorBytes]
    rw [getB_set]
    by_cases h : i = n
    · subst h
      rw [if_pos ⟨rfl, hil⟩,
        xorBytes_congr (buf.set i v) buf i
          (fun j hj => by rw [getB_set, if_neg (by omega)]),
        Nat.xor_assoc (xorBytes buf i) (getB buf i) (getB buf i), Nat.xor_self,
        Nat.xor_zero]
    · rw [if_neg (by omega), ih (by omega),
        xor_rotate (xorBytes buf n ^^^ getB buf i) v (getB buf n),
        xor_rotate (xorBytes buf n) (getB buf i) (getB buf n)]

/-- Byte effect of storing the checksum through the 16-bit `Command` word:
    provided bytes 6 and 7 hold byte values, only the checksum byte changes
    (byte 6 on a little-endian host, byte 7 on a big-endian host). -/
lemma wrChecksumBuf_bytes (le : Bool) (buf : List Nat) (v i : Nat)
    (h6 : getB buf 6 < 256) (h7 : getB buf 7 < 256) :
    getB (wrChecksumBuf le buf v) i =
      if i = 6 ∧ i < buf.length then (if le then v % 256 else getB buf 6)
      else if i = 7 ∧ i < buf.length then (if le then getB buf 7 else v % 256)
      else getB buf i := by
  cases le <;>
    · dsimp only [wrChecksumBuf, CCSDS_WR_CHECKSUM, secOfBuf]
      rw [getB_putSec]
      simp only [Bool.false_eq_true, if_false, if_true]
      rw [wr_checksum_word]
      split_ifs <;> omega

/-- Core of the checksum self-reduction: storing a cleared checksum, then the
    computed XOR, at the checksum byte position `c` (6 on little-endian
    hosts, 7 on big-endian hosts) makes the recomputed XOR zero, provided the
    declared length covers the whole 8-byte header and fits the 16-bit loop
    counter, and the covered bytes are byte values. -/
lemma load_aux (le : Bool) (c : Nat) (hc : c = 6 ∨ c = 7)
    (hwr : ∀ b : List Nat, ∀ v i, getB b 6 < 256 → getB b 7 < 256 →
      getB (wrChecksumBuf le b v) i = if i = c ∧ i < b.length then v % 256 else getB b i)
    (buf : List Nat) (hlen : 8 ≤ buf.length)
    (hd8 : 8 ≤ CCSDS_RD_LEN (priOfBuf buf))
    (hdmax : CCSDS_RD_LEN (priOfBuf buf) ≤ 65535)
    (hbytes : ∀ i, i < CCSDS_RD_LEN (priOfBuf buf) → getB buf i < 256) :
    CCSDS_ComputeCheckSum (CCSDS_LoadCheckSum le buf) = 0 := by
  have h6 := hbytes 6 (by omega)
  have h7 := hbytes 7 (by omega)
  set d := CCSDS_RD_LEN (priOfBuf buf) with hd
  set b1 := wrChecksumBuf le buf 0 with hb1def
  have hlen1 : b1.length = buf.length := length_wrChecksumBuf le buf 0
  have hb1 : ∀ i, getB b1 i = if i = c ∧ i < buf.length then 0 else getB buf i := by
    intro i
    rw [hb1def, hwr buf 0 i h6 h7]
  have hb1c : getB b1 c = 0 := by rw [hb1 c, if_pos ⟨rfl, by omega⟩]
  have hb1ne : ∀ i, i ≠ c → getB b1 i = getB buf i := by
    intro i hi; rw [hb1 i, if_neg (by omega)]
  have hpri1 : priOfBuf b1 = priOfBuf buf := by
    dsimp only [priOfBuf]
    rw [hb1ne 0 (by omega), hb1ne 1 (by omega), hb1ne 2 (by omega), hb1ne 3 (by omega),
      hb1ne 4 (by omega), hb1ne 5 (by omega)]
  have hb1lt : ∀ i, i < d → getB b1 i < 256 := by
    intro i hi
    rw [hb1 i]
    split_ifs
    · omega
    · exact hbytes i hi
  have hX : CCSDS_ComputeCheckSum b1 = xorBytes b1 d := by
    dsimp only [CCSDS_ComputeCheckSum]
    rw [hpri1, ← hd, Nat.mod_eq_of_lt (by omega)]
  set X := xorBytes b1 d with hXdef
  have hXlt : X < 256 := by rw [hXdef]; exact xorBytes_lt_256 b1 d hb1lt
  have hb16 : getB b1 6 < 256 := by
    rcases hc with h | h
    · subst h; rw [hb1c]; omega
    · subst h; rw [hb1ne 6 (by omega)]; exact h6
  have hb17 : getB b1 7 < 256 := by
    rcases hc with h | h
    · subst h; rw [hb1ne 7 (by omega)]; exact h7
    · subst h; rw [hb1c]; omega
  have hout : ∀ i, getB (wrChecksumBuf le b1 X) i = getB (b1.set c X) i := by
    intro i
    rw [hwr b1 X i hb16 hb17, getB_set]
    by_cases hi : i = c ∧ i < b1.length
    · rw [if_pos hi, if_pos ⟨hi.1.symm, by omega⟩, Nat.mod_eq_of_lt hXlt]
    · rw [if_neg hi, if_neg (by omega)]
  have houtpri : priOfBuf (wrChecksumBuf le b1 X) = priOfBuf b1 := by
    dsimp only [priOfBuf]
    rw [hout 0, hout 1, hout 2, hout 3, hout 4, hout 5]
    simp only [getB_set]
    iterate 6 rw [if_neg (by omega)]
  dsimp only [CCSDS_LoadCheckSum]
  rw [← hb1def, hX]
  dsimp only [CCSDS_ComputeCheckSum]
  rw [houtpri, hpri1, ← hd, Nat.mod_eq_of_lt (by omega)]
  rw [xorBytes_congr (wrChecksumBuf le b1 X) (b1.set c X) d (fun i _ => hout i)]
  rw [xorBytes_set b1 c X d (by omega) (by omega)]
  rw [← hXdef, hb1c, Nat.xor_zero, Nat.xor_self]

/-- After `CCSDS_LoadCheckSum`, the recomputed checksum is 0 whenever the
    declared total length covers the header and fits in 16 bits. -/
lemma compute_loadCheckSum (le : Bool) (buf : List Nat)
    (hlen : 8 ≤ buf.length)
    (hd8 : 8 ≤ CCSDS_RD_LEN (priOfBuf buf))
    (hdmax : CCSDS_RD_LEN (priOfBuf buf) ≤ 65535)
    (hbytes : ∀ i, i < CCSDS_RD_LEN (priOfBuf buf) → getB buf i < 256) :
    CCSDS_ComputeCheckSum (CCSDS_LoadCheckSum le buf) = 0 := by
  cases le
  case false =>
    refine load_aux false 7 (Or.inr rfl) ?_ buf hlen hd8 hdmax hbytes
    intro b v i h6 h7
    rw [wrChecksumBuf_bytes false b v i h6 h7]
    by_cases h1 : i = 6 ∧ i < b.length
    · rw [if_pos h1, if_neg (by decide), if_neg (by omega), h1.1]
    · rw [if_neg h1]
      by_cases h2 : i = 7 ∧ i < b.length
      · rw [if_pos h2, if_neg (by decide), if_pos h2]
      · rw [if_neg h2, if_neg h2]
  case true =>
    refine load_aux true 6 (Or.inl rfl) ?_ buf hlen hd8 hdmax hbytes
    intro b v i h6 h7
    rw [wrChecksumBuf_bytes true b v i h6 h7]
    by_cases h1 : i = 6 ∧ i < b.length
    · rw [if_pos h1, if_pos rfl, if_pos h1]
    · rw [if_neg h1, if_neg h1]
      by_cases h2 : i = 7 ∧ i < b.length
      · rw [if_pos h2, if_pos rfl, h2.1]
      · rw [if_neg h2]

/-- `CCSDS_ValidCheckSum` holds after `CCSDS_LoadCheckSum` under the same
    conditions. -/
lemma valid_loadCheckSum (le : Bool) (buf : List Nat)
    (hlen : 8 ≤ buf.length)
    (hd8 : 8 ≤ CCSDS_RD_LEN (priOfBuf buf))
    (hdmax : CCSDS_RD_LEN (priOfBuf buf) ≤ 65535)
    (hbytes : ∀ i, i < CCSDS_RD_LEN (priOfBuf buf) → getB buf i < 256) :
    CCSDS_ValidCheckSum (CCSDS_LoadCheckSum le buf) = true := by
  dsimp only [CCSDS_ValidCheckSum]
  rw [compute_loadCheckSum le buf hlen hd8 hdmax hbytes]
  rfl

/-- Claim C4.  `CCSDS_BuildTelecommand` returns 0 exactly when the buffer
    pointer is NULL, or `8 + PayloadLen` exceeds the declared capacity, or
    `8 + PayloadLen` exceeds 65535; on every rejection the buffer is
    returned unmodified; and a non-NULL call whose required size equals the
    capacity exactly succeeds, returning `8 + PayloadLen`. -/
theorem build_reject_iff (le bufNull : Bool) (buf : List Nat)
    (cap apid seq fc : Nat) (payNull : Bool) (pay : List Nat) (plen : Nat)
    (hcap : cap ≤ 65535) :
    ((CCSDS_BuildTelecommand le bufNull buf cap apid seq fc payNull pay plen).2 = 0 ↔
      (bufNull = true ∨ cap < 8 + plen ∨ 65535 < 8 + plen)) ∧
    ((CCSDS_BuildTelecommand le bufNull buf cap apid seq fc payNull pay plen).2 = 0 →
      (CCSDS_BuildTelecommand le bufNull buf cap apid seq fc payNull pay plen).1 = buf) ∧
    (bufNull = false → 8 + plen = cap →
      (CCSDS_BuildTelecommand le bufNull buf cap apid seq fc payNull pay plen).2 = 8 + plen) := by
  cases bufNull
  case true =>
    refine ⟨?_, ?_, ?_⟩
    · simp [CCSDS_BuildTelecommand]
    · intro _; simp [CCSDS_BuildTelecommand]
    · intro h; exact absurd h (by simp)
  case false =>
    by_cases hg : 8 + plen > cap ∨ 8 + plen > 65535
    · have hval : CCSDS_BuildTelecommand le false buf cap apid seq fc payNull pay plen
          = (buf, 0) := by
        dsimp only [CCSDS_BuildTelecommand]
        rw [if_neg (by simp), if_pos hg]
      refine ⟨?_, ?_, ?_⟩
      · rw [hval]; dsimp only
        rcases hg with h | h <;> simp <;> omega
      · intro _; rw [hval]
      · intro _ hcapeq; exfalso; rcases hg with h | h <;> omega
    · have h2 : (CCSDS_BuildTelecommand le false buf cap apid seq fc payNull pay plen).2
          = 8 + plen := by
        dsimp only [CCSDS_BuildTelecommand]
        rw [if_neg (by simp), if_neg hg]
      refine ⟨?_, ?_, ?_⟩
      · rw [h2]; simp; omega
      · intro h0; exfalso; rw [h2] at h0; omega
      · intro _ _; exact h2

/-- Witness for `build_reject_iff`: a call whose required size equals the
    capacity exactly (18 bytes) succeeds and returns 18. -/
theorem build_reject_iff_witness :
    (CCSDS_BuildTelecommand true false (List.replicate 18 0) 18 5 0 0 false [] 10).2
      = 8 + 10 :=
  (build_reject_iff true false (List.replicate 18 0) 18 5 0 0 false [] 10
    (by decide)).2.2 rfl (by decide)

/-! ## The builder in closed form -/

/-- The fully written primary header of the builder, in closed arithmetic
    form (`T` is the total length passed to `CCSDS_WR_LEN`). -/
lemma build_headers (apid seq T : Nat) :
    CCSDS_WR_LEN (CCSDS_WR_SEQ (CCSDS_WR_VERS (CCSDS_WR_SHDR (CCSDS_WR_TYPE
        (CCSDS_WR_APID CCSDS_CLR_PRI_HDR apid) 1) 1) 0) seq) T =
      ⟨apid / 256 % 8 + 24, apid % 256, 192 + seq / 256 % 64, seq % 256,
       (T - 7) / 256 % 256, (T - 7) % 256⟩ := by
  dsimp only [CCSDS_WR_APID, CCSDS_WR_TYPE, CCSDS_WR_SHDR, CCSDS_WR_VERS, CCSDS_WR_SEQ,
    CCSDS_WR_LEN, CCSDS_CLR_PRI_HDR]
  simp only [CCSDS_PriHdr_t.mk.injEq]
  refine ⟨?_, ?_, ?_, ?_, ?_, ?_⟩
  · rw [wr_apid_byte0, wr_type_byte, wr_shdr_byte, wr_vers_byte]; omega
  · rw [and_mask_FF]; omega
  · rw [wr_seq_byte0]; omega
  · rw [and_mask_FF]; omega
  · omega
  · rw [and_mask_FF]; omega

/-- The secondary header written by the builder: function code in bits
    8-14, everything else 0. -/
lemma build_sec (fc : Nat) :
    CCSDS_WR_FC CCSDS_CLR_CMDSEC_HDR fc = ⟨fc % 128 * 256⟩ := by
  dsimp only [CCSDS_WR_FC, CCSDS_CLR_CMDSEC_HDR]
  simp only [CCSDS_CmdSecHdr_t.mk.injEq]
  rw [wr_fc_word]; omega

/-- Bytes of the buffer after the builder stores both headers. -/
lemma getB_hdrStore (le : Bool) (buf : List Nat) (p : CCSDS_PriHdr_t)
    (s : CCSDS_CmdSecHdr_t) (i : Nat) :
    getB (putSec le (putPri buf p) s) i =
      if i < buf.length then
        (if i = 0 then p.StreamId0 % 256 else if i = 1 then p.StreamId1 % 256
         else if i = 2 then p.Sequence0 % 256 else if i = 3 then p.Sequence1 % 256
         else if i = 4 then p.Length0 % 256 else if i = 5 then p.Length1 % 256
         else if i = 6 then (if le then s.Command else s.Command / 256) % 256
         else if i = 7 then (if le then s.Command / 256 else s.Command) % 256
         else getB buf i)
      else getB buf i := by
  by_cases hl : i < buf.length
  case neg =>
    rw [if_neg hl, getB_putSec, length_putPri, getB_putPri,
      if_neg (by omega), if_neg (by omega), if_neg (by omega)]
  case pos =>
    rw [getB_putSec, length_putPri, getB_putPri, if_pos hl]
    by_cases h6 : i = 6
    · subst h6; rw [if_pos ⟨rfl, hl⟩]; simp
    by_cases h7 : i = 7
    · subst h7; rw [if_neg (by omega), if_pos ⟨rfl, hl⟩]; simp
    rw [if_neg (by omega), if_neg (by omega)]
    by_cases h5 : i ≤ 5
    · rw [if_pos ⟨h5, hl⟩]
      interval_cases i <;> simp
    · iterate 9 rw [if_neg (by omega)]

/-- On the success path the builder is header stores, payload copy, and
    checksum load, returning the total length. -/
lemma build_success_eq (le : Bool) (buf : List Nat) (cap apid seq fc : Nat)
    (payNull : Bool) (pay : List Nat) (plen : Nat)
    (hfit : 8 + plen ≤ cap) (hcap : cap ≤ 65535) :
    CCSDS_BuildTelecommand le false buf cap apid seq fc payNull pay plen =
      (CCSDS_LoadCheckSum le
        (if ¬payNull ∧ plen > 0 then
          copyPayload (putSec le (putPri buf (CCSDS_WR_LEN (CCSDS_WR_SEQ (CCSDS_WR_VERS
              (CCSDS_WR_SHDR (CCSDS_WR_TYPE (CCSDS_WR_APID CCSDS_CLR_PRI_HDR apid) 1) 1)
              0) seq) (8 + plen)))
            (CCSDS_WR_FC CCSDS_CLR_CMDSEC_HDR fc)) pay plen
        else putSec le (putPri buf (CCSDS_WR_LEN (CCSDS_WR_SEQ (CCSDS_WR_VERS
              (CCSDS_WR_SHDR (CCSDS_WR_TYPE (CCSDS_WR_APID CCSDS_CLR_PRI_HDR apid) 1) 1)
              0) seq) (8 + plen)))
            (CCSDS_WR_FC CCSDS_CLR_CMDSEC_HDR fc)),
       8 + plen) := by
  dsimp only [CCSDS_BuildTelecommand]
  rw [if_neg (by simp), if_neg (by omega)]

/-- `CCSDS_LoadCheckSum` leaves every byte outside the 16-bit `Command` word
    (bytes 6 and 7) unchanged. -/
lemma getB_loadCheckSum_ne (le : Bool) (buf : List Nat) (i : Nat)
    (h6 : getB buf 6 < 256) (h7 : getB buf 7 < 256) (hi6 : i ≠ 6) (hi7 : i ≠ 7) :
    getB (CCSDS_LoadCheckSum le buf) i = getB buf i := by
  dsimp only [CCSDS_LoadCheckSum]
  have h6b : getB (wrChecksumBuf le buf 0) 6 < 256 := by
    rw [wrChecksumBuf_bytes le buf 0 6 h6 h7]
    split_ifs <;> cases le <;> (try simp only [if_true, Bool.false_eq_true, if_false]) <;> omega
  have h7b : getB (wrChecksumBuf le buf 0) 7 < 256 := by
    rw [wrChecksumBuf_bytes le buf 0 7 h6 h7]
    split_ifs <;> cases le <;> (try simp only [if_true, Bool.false_eq_true, if_false]) <;> omega
  rw [wrChecksumBuf_bytes le _ _ i h6b h7b, if_neg (by omega), if_neg (by omega),
    wrChecksumBuf_bytes le buf 0 i h6 h7, if_neg (by omega), if_neg (by omega)]

/-- After `CCSDS_LoadCheckSum`, bytes 6 and 7 still hold byte values. -/
lemma getB_loadCheckSum_67_lt (le : Bool) (buf : List Nat)
    (h6 : getB buf 6 < 256) (h7 : getB buf 7 < 256) :
    getB (CCSDS_LoadCheckSum le buf) 6 < 256 ∧
      getB (CCSDS_LoadCheckSum le buf) 7 < 256 := by
  dsimp only [CCSDS_LoadCheckSum]
  have h6b : getB (wrChecksumBuf le buf 0) 6 < 256 := by
    rw [wrChecksumBuf_bytes le buf 0 6 h6 h7]
    split_ifs <;> cases le <;> (try simp only [if_true, Bool.false_eq_true, if_false]) <;> omega
  have h7b : getB (wrChecksumBuf le buf 0) 7 < 256 := by
    rw [wrChecksumBuf_bytes le buf 0 7 h6 h7]
    split_ifs <;> cases le <;> (try simp only [if_true, Bool.false_eq_true, if_false]) <;> omega
  constructor <;>
  · rw [wrChecksumBuf_bytes le _ _ _ h6b h7b]
    split_ifs <;> cases le <;> (try simp only [if_true, Bool.false_eq_true, if_false]) <;> omega

/-- `CCSDS_LoadCheckSum` rewrites the function-code byte (7 on little-endian
    hosts, 6 on big-endian hosts) with its previous value. -/
lemma getB_loadCheckSum_fIdx (le : Bool) (buf : List Nat)
    (h6 : getB buf 6 < 256) (h7 : getB buf 7 < 256) (hlen : 8 ≤ buf.length) :
    getB (CCSDS_LoadCheckSum le buf) (if le then 7 else 6)
      = getB buf (if le then 7 else 6) := by
  have hl1 : (wrChecksumBuf le buf 0).length = buf.length := length_wrChecksumBuf le buf 0
  cases le
  case true =>
    dsimp only [CCSDS_LoadCheckSum]
    have h6b : getB (wrChecksumBuf true buf 0) 6 < 256 := by
      rw [wrChecksumBuf_bytes true buf 0 6 h6 h7]
      split_ifs <;> (try simp only [if_true]) <;> omega
    have h7b : getB (wrChecksumBuf true buf 0) 7 < 256 := by
      rw [wrChecksumBuf_bytes true buf 0 7 h6 h7]
      split_ifs <;> (try simp only [if_true]) <;> omega
    simp only [if_true]
    rw [wrChecksumBuf_bytes true _ _ 7 h6b h7b, if_neg (by omega),
      if_pos ⟨rfl, by omega⟩, if_pos rfl,
      wrChecksumBuf_bytes true buf 0 7 h6 h7, if_neg (by omega),
      if_pos ⟨rfl, by omega⟩, if_pos rfl]
  case false =>
    dsimp only [CCSDS_LoadCheckSum]
    have h6b : getB (wrChecksumBuf false buf 0) 6 < 256 := by
      rw [wrChecksumBuf_bytes false buf 0 6 h6 h7]
      split_ifs <;> (try simp only [Bool.false_eq_true, if_false]) <;> omega
    have h7b : getB (wrChecksumBuf false buf 0) 7 < 256 := by
      rw [wrChecksumBuf_bytes false buf 0 7 h6 h7]
      split_ifs <;> (try simp only [Bool.false_eq_true, if_false]) <;> omega
    simp only [Bool.false_eq_true, if_false]
    rw [wrChecksumBuf_bytes false _ _ 6 h6b h7b, if_pos ⟨rfl, by omega⟩,
      if_neg (by decide),
      wrChecksumBuf_bytes false buf 0 6 h6 h7, if_pos ⟨rfl, by omega⟩,
      if_neg (by decide)]

/-- Specification of the tail of the builder (payload copy plus checksum
    load) over a buffer `B` that already holds both headers for the given
    apid, sequence count, function code and payload length. -/
lemma buildCore_spec (le : Bool) (buf B pay : List Nat)
    (apid seq fc plen : Nat) (c : Prop) [Decidable c]
    (hBlen : B.length = buf.length)
    (hlen8 : 8 + plen ≤ buf.length) (hmax : 8 + plen ≤ 65535)
    (hB0 : getB B 0 = apid / 256 % 8 + 24)
    (hB1 : getB B 1 = apid % 256)
    (hB2 : getB B 2 = 192 + seq / 256 % 64)
    (hB3 : getB B 3 = seq % 256)
    (hB4 : getB B 4 = (plen + 1) / 256)
    (hB5 : getB B 5 = (plen + 1) % 256)
    (hB6 : getB B 6 = if le then 0 else fc % 128)
    (hB7 : getB B 7 = if le then fc % 128 else 0)
    (hBge : ∀ i, 8 ≤ i → getB B i = getB buf i)
    (hpre : ∀ i, 8 ≤ i → i < 8 + plen → getB buf i < 256) :
    (CCSDS_LoadCheckSum le (if c then copyPayload B pay plen else B)).length
        = buf.length ∧
    getB (CCSDS_LoadCheckSum le (if c then copyPayload B pay plen else B)) 0
        = apid / 256 % 8 + 24 ∧
    getB (CCSDS_LoadCheckSum le (if c then copyPayload B pay plen else B)) 1
        = apid % 256 ∧
    getB (CCSDS_LoadCheckSum le (if c then copyPayload B pay plen else B)) 2
        = 192 + seq / 256 % 64 ∧
    getB (CCSDS_LoadCheckSum le (if c then copyPayload B pay plen else B)) 3
        = seq % 256 ∧
    getB (CCSDS_LoadCheckSum le (if c then copyPayload B pay plen else B)) 4
        = (plen + 1) / 256 ∧
    getB (CCSDS_LoadCheckSum le (if c then copyPayload B pay plen else B)) 5
        = (plen + 1) % 256 ∧
    getB (CCSDS_LoadCheckSum le (if c then copyPayload B pay plen else B))
        (if le then 7 else 6) = fc % 128 ∧
    getB (CCSDS_LoadCheckSum le (if c then copyPayload B pay plen else B))
        (if le then 6 else 7) < 256 ∧
    (∀ i, 8 ≤ i → i < 8 + plen →
      getB (CCSDS_LoadCheckSum le (if c then copyPayload B pay plen else B)) i
        = if c then pay.getD (i - 8) 0 % 256 else getB buf i) ∧
    CCSDS_RD_LEN (priOfBuf
        (CCSDS_LoadCheckSum le (if c then copyPayload B pay plen else B))) = 8 + plen ∧
    (∀ i, i < 8 + plen →
      getB (CCSDS_LoadCheckSum le (if c then copyPayload B pay plen else B)) i < 256) ∧
    CCSDS_ValidCheckSum (CCSDS_LoadCheckSum le (if c then copyPayload B pay plen else B))
        = true := by
  set P := if c then copyPayload B pay plen else B with hP
  have hPlen : P.length = buf.length := by
    rw [hP]; split_ifs
    · rw [length_copyPayload, hBlen]
    · exact hBlen
  have hPhdr : ∀ i, i < 8 → getB P i = getB B i := by
    intro i hi
    rw [hP]; split_ifs
    · rw [getB_copyPayload, if_neg (by omega)]
    · rfl
  have hPpay : ∀ i, 8 ≤ i → i < 8 + plen →
      getB P i = if c then pay.getD (i - 8) 0 % 256 else getB buf i := by
    intro i h8 hlt
    rw [hP]
    split_ifs
    · rw [getB_copyPayload, if_pos ⟨h8, by omega, by omega⟩]
    · exact hBge i h8
  have hd : CCSDS_RD_LEN (priOfBuf P) = 8 + plen := by
    rw [RD_LEN_arith]
    dsimp only [priOfBuf]
    rw [hPhdr 4 (by omega), hPhdr 5 (by omega), hB4, hB5]
    omega
  have hP6 : getB P 6 < 256 := by
    rw [hPhdr 6 (by omega), hB6]
    cases le <;> (try simp only [if_true, Bool.false_eq_true, if_false]) <;> omega
  have hP7 : getB P 7 < 256 := by
    rw [hPhdr 7 (by omega), hB7]
    cases le <;> (try simp only [if_true, Bool.false_eq_true, if_false]) <;> omega
  have hPlt : ∀ i, i < 8 + plen → getB P i < 256 := by
    intro i hi
    by_cases h8 : i < 8
    · rw [hPhdr i h8]
      interval_cases i
      · rw [hB0]; omega
      · rw [hB1]; omega
      · rw [hB2]; omega
      · rw [hB3]; omega
      · rw [hB4]; omega
      · rw [hB5]; omega
      · rw [hB6]
        cases le <;> (try simp only [if_true, Bool.false_eq_true, if_false]) <;> omega
      · rw [hB7]
        cases le <;> (try simp only [if_true, Bool.false_eq_true, if_false]) <;> omega
    · rw [hPpay i (by omega) hi]
      split_ifs
      · omega
      · exact hpre i (by omega) hi
  have hlen8P : 8 ≤ P.length := by omega
  have hOne : ∀ i, i ≠ 6 → i ≠ 7 → getB (CCSDS_LoadCheckSum le P) i = getB P i :=
    fun i hi6 hi7 => getB_loadCheckSum_ne le P i hP6 hP7 hi6 hi7
  have hO67 := getB_loadCheckSum_67_lt le P hP6 hP7
  have hOf := getB_loadCheckSum_fIdx le P hP6 hP7 hlen8P
  have hOpri : priOfBuf (CCSDS_LoadCheckSum le P) = priOfBuf P := by
    dsimp only [priOfBuf]
    rw [hOne 0 (by omega) (by omega), hOne 1 (by omega) (by omega),
      hOne 2 (by omega) (by omega), hOne 3 (by omega) (by omega),
      hOne 4 (by omega) (by omega), hOne 5 (by omega) (by omega)]
  have hvalid : CCSDS_ValidCheckSum (CCSDS_LoadCheckSum le P) = true :=
    valid_loadCheckSum le P hlen8P (by rw [hd]; omega) (by rw [hd]; omega)
      (by intro i hi; rw [hd] at hi; exact hPlt i hi)
  refine ⟨?_, ?_, ?_, ?_, ?_, ?_, ?_, ?_, ?_, ?_, ?_, ?_, ?_⟩
  · rw [length_loadCheckSum]; exact hPlen
  · rw [hOne 0 (by omega) (by omega), hPhdr 0 (by omega), hB0]
  · rw [hOne 1 (by omega) (by omega), hPhdr 1 (by omega), hB1]
  · rw [hOne 2 (by omega) (by omega), hPhdr 2 (by omega), hB2]
  · rw [hOne 3 (by omega) (by omega), hPhdr 3 (by omega), hB3]
  · rw [hOne 4 (by omega) (by omega), hPhdr 4 (by omega), hB4]
  · rw [hOne 5 (by omega) (by omega), hPhdr 5 (by omega), hB5]
  · rw [hOf]
    cases le
    · simp only [Bool.false_eq_true, if_false]
      rw [hPhdr 6 (by omega), hB6]
      simp only [Bool.false_eq_true, if_false]
    · simp only [if_true]
      rw [hPhdr 7 (by omega), hB7]
      simp only [if_true]
  · cases le
    · simp only [Bool.false_eq_true, if_false]; exact hO67.2
    · simp only [if_true]; exact hO67.1
  · intro i h8 hlt
    rw [hOne i (by omega) (by omega), hPpay i h8 hlt]
  · rw [hOpri, hd]
  · intro i hi
    by_cases h6 : i = 6
    · subst h6; exact hO67.1
    by_cases h7 : i = 7
    · subst h7; exact hO67.2
    rw [hOne i h6 h7]; exact hPlt i hi
  · exact hvalid

/-- Full specification of a successful `CCSDS_BuildTelecommand` call: the
    returned length, all header bytes, the payload region, the declared
    length, byte bounds, and checksum validity of the produced packet. -/
lemma build_success_spec (le : Bool) (buf : List Nat) (cap apid seq fc : Nat)
    (payNull : Bool) (pay : List Nat) (plen : Nat)
    (hcap : cap ≤ 65535) (hfit : 8 + plen ≤ cap) (hblen : buf.length = cap)
    (hpre : ∀ i, 8 ≤ i → i < 8 + plen → getB buf i < 256) :
    (CCSDS_BuildTelecommand le false buf cap apid seq fc payNull pay plen).2
        = 8 + plen ∧
    (CCSDS_BuildTelecommand le false buf cap apid seq fc payNull pay plen).1.length
        = buf.length ∧
    getB (CCSDS_BuildTelecommand le false buf cap apid seq fc payNull pay plen).1 0
        = apid / 256 % 8 + 24 ∧
    getB (CCSDS_BuildTelecommand le false buf cap apid seq fc payNull pay plen).1 1
        = apid % 256 ∧
    getB (CCSDS_BuildTelecommand le false buf cap apid seq fc payNull pay plen).1 2
        = 192 + seq / 256 % 64 ∧
    getB (CCSDS_BuildTelecommand le false buf cap apid seq fc payNull pay plen).1 3
        = seq % 256 ∧
    getB (CCSDS_BuildTelecommand le false buf cap apid seq fc payNull pay plen).1 4
        = (plen + 1) / 256 ∧
    getB (CCSDS_BuildTelecommand le false buf cap apid seq fc payNull pay plen).1 5
        = (plen + 1) % 256 ∧
    getB (CCSDS_BuildTelecommand le false buf cap apid seq fc payNull pay plen).1
        (if le then 7 else 6) = fc % 128 ∧
    getB (CCSDS_BuildTelecommand le false buf cap apid seq fc payNull pay plen).1
        (if le then 6 else 7) < 256 ∧
    (∀ i, 8 ≤ i → i < 8 + plen →
      getB (CCSDS_BuildTelecommand le false buf cap apid seq fc payNull pay plen).1 i
        = if ¬payNull ∧ plen > 0 then pay.getD (i - 8) 0 % 256 else getB buf i) ∧
    CCSDS_RD_LEN (priOfBuf
        (CCSDS_BuildTelecommand le false buf cap apid seq fc payNull pay plen).1)
        = 8 + plen ∧
    (∀ i, i < 8 + plen →
      getB (CCSDS_BuildTelecommand le false buf cap apid seq fc payNull pay plen).1 i
        < 256) ∧
    CCSDS_ValidCheckSum
        (CCSDS_BuildTelecommand le false buf cap apid seq fc payNull pay plen).1
        = true := by
  have heq := build_success_eq le buf cap apid seq fc payNull pay plen hfit hcap
  rw [build_headers, build_sec] at heq
  have hcore := buildCore_spec le buf
    (putSec le (putPri buf ⟨apid / 256 % 8 + 24, apid % 256, 192 + seq / 256 % 64,
      seq % 256, (8 + plen - 7) / 256 % 256, (8 + plen - 7) % 256⟩)
      ⟨fc % 128 * 256⟩)
    pay apid seq fc plen (¬payNull ∧ plen > 0)
    (by rw [length_putSec, length_putPri])
    (by omega) (by omega)
    (by rw [getB_hdrStore, if_pos (by omega), if_pos rfl]; dsimp only; omega)
    (by rw [getB_hdrStore, if_pos (by omega), if_neg (by omega), if_pos rfl]
        dsimp only; omega)
    (by rw [getB_hdrStore, if_pos (by omega)]
        iterate 2 rw [if_neg (by omega)]
        rw [if_pos rfl]; dsimp only; omega)
    (by rw [getB_hdrStore, if_pos (by omega)]
        iterate 3 rw [if_neg (by omega)]
        rw [if_pos rfl]; dsimp only; omega)
    (by rw [getB_hdrStore, if_pos (by omega)]
        iterate 4 rw [if_neg (by omega)]
        rw [if_pos rfl]; dsimp only; omega)
    (by rw [getB_hdrStore, if_pos (by omega)]
        iterate 5 rw [if_neg (by omega)]
        rw [if_pos rfl]; dsimp only; omega)
    (by rw [getB_hdrStore, if_pos (by omega)]
        iterate 6 rw [if_neg (by omega)]
        rw [if_pos rfl]; dsimp only
        cases le <;> (try simp only [if_true, Bool.false_eq_true, if_false]) <;> omega)
    (by rw [getB_hdrStore, if_pos (by omega)]
        iterate 7 rw [if_neg (by omega)]
        rw [if_pos rfl]; dsimp only
        cases le <;> (try simp only [if_true, Bool.false_eq_true, if_false]) <;> omega)
    (by intro i hi
        rw [getB_hdrStore]
        by_cases hl : i < buf.length
        · rw [if_pos hl]
          iterate 8 rw [if_neg (by omega)]
        · rw [if_neg hl])
    hpre
  refine ⟨by rw [heq], ?_, ?_, ?_, ?_, ?_, ?_, ?_, ?_, ?_, ?_, ?_, ?_, ?_⟩
  · rw [heq]; exact hcore.1
  · rw [heq]; exact hcore.2.1
  · rw [heq]; exact hcore.2.2.1
  · rw [heq]; exact hcore.2.2.2.1
  · rw [heq]; exact hcore.2.2.2.2.1
  · rw [heq]; exact hcore.2.2.2.2.2.1
  · rw [heq]; exact hcore.2.2.2.2.2.2.1
  · rw [heq]; exact hcore.2.2.2.2.2.2.2.1
  · rw [heq]; exact hcore.2.2.2.2.2.2.2.2.1
  · rw [heq]; exact hcore.2.2.2.2.2.2.2.2.2.1
  · rw [heq]; exact hcore.2.2.2.2.2.2.2.2.2.2.1
  · rw [heq]; exact hcore.2.2.2.2.2.2.2.2.2.2.2.1
  · rw [heq]; exact hcore.2.2.2.2.2.2.2.2.2.2.2.2

lemma getB_eq_getElem (buf : List Nat) (i : Nat) (h : i < buf.length) :
    getB buf i = buf[i] := by
  dsimp only [getB]
  rw [List.getD_eq_getElem?_getD, List.getElem?_eq_getElem h]
  rfl

lemma getB_lt_of_mem (buf : List Nat) (h : ∀ x ∈ buf, x < 256) (i : Nat) :
    getB buf i < 256 := by
  by_cases hl : i < buf.length
  · rw [getB_eq_getElem buf i hl]
    exact h _ (List.getElem_mem hl)
  · dsimp only [getB]
    rw [List.getD_eq_getElem?_getD, List.getElem?_eq_none (by omega)]
    decide

/-- Claim C1.  For every buffer of capacity `cap`, apid in `[0, 2047]`,
    sequence count in `[0, 16383]`, function code in `[0, 127]`, and payload
    of length `plen ≤ cap - 8`, building a telecommand and reading it back
    through `CCSDS_RD_APID`, `CCSDS_RD_SEQ`, `CCSDS_RD_FC` and the payload
    bytes returns exactly the inputs, and the returned total length is
    `8 + plen`.  Host byte order `le` is arbitrary because the same
    struct view is used to write and to read. -/
theorem build_roundTrip (le : Bool) (buf pay : List Nat) (cap apid seq fc plen : Nat)
    (hapid : apid < 2048) (hseq : seq < 16384) (hfc : fc < 128)
    (hplen : plen = pay.length)
    (hcap : cap ≤ 65535) (hfit : 8 + plen ≤ cap) (hblen : buf.length = cap)
    (hbuf : ∀ x ∈ buf, x < 256) (hpay : ∀ x ∈ pay, x < 256) :
    (CCSDS_BuildTelecommand le false buf cap apid seq fc false pay plen).2
      = 8 + plen ∧
    CCSDS_RD_APID (priOfBuf
      (CCSDS_BuildTelecommand le false buf cap apid seq fc false pay plen).1) = apid ∧
    CCSDS_RD_SEQ (priOfBuf
      (CCSDS_BuildTelecommand le false buf cap apid seq fc false pay plen).1) = seq ∧
    CCSDS_RD_FC (secOfBuf le
      (CCSDS_BuildTelecommand le false buf cap apid seq fc false pay plen).1) = fc ∧
    (((CCSDS_BuildTelecommand le false buf cap apid seq fc false pay plen).1).drop
      8).take plen = pay := by
  obtain ⟨hret, hlenO, h0, h1, h2, h3, h4, h5, hf, hclt, hpayr, hdlen, hblt, hvalid⟩ :=
    build_success_spec le buf cap apid seq fc false pay plen hcap hfit hblen
      (fun i _ _ => getB_lt_of_mem buf hbuf i)
  refine ⟨hret, ?_, ?_, ?_, ?_⟩
  · rw [RD_APID_arith]; dsimp only [priOfBuf]; rw [h0, h1]; omega
  · rw [RD_SEQ_arith]; dsimp only [priOfBuf]; rw [h2, h3]; omega
  · rw [RD_FC_arith]; dsimp only [secOfBuf]
    cases le
    · simp only [Bool.false_eq_true, if_false]
      simp only [Bool.false_eq_true, if_false] at hf hclt
      rw [hf]; omega
    · simp only [if_true]
      simp only [if_true] at hf hclt
      rw [hf]; omega
  · apply List.ext_getElem
    · rw [List.length_take, List.length_drop, hlenO]
      omega
    · intro i hi1 hi2
      simp only [List.getElem_take, List.getElem_drop]
      rw [← getB_eq_getElem _ _ (by rw [hlenO]; omega)]
      rw [hpayr (8 + i) (by omega) (by omega), if_pos ⟨by simp, by omega⟩]
      have hi8 : 8 + i - 8 = i := by omega
      rw [hi8]
      have hpi : i < pay.length := by omega
      rw [List.getD_eq_getElem?_getD, List.getElem?_eq_getElem hpi]
      have := hpay _ (List.getElem_mem hpi)
      dsimp only [Option.getD]
      omega

/-- Witness for `build_roundTrip`: apid `0x1A5`, sequence 0, function code
    `0x0A` and the 10-byte payload "CMD_SEQ_0\0" in an 18-byte buffer. -/
theorem build_roundTrip_witness :
    (CCSDS_BuildTelecommand true false (List.replicate 18 0) 18 421 0 10 false
      [67, 77, 68, 95, 83, 69, 81, 95, 48, 0] 10).2 = 8 + 10 ∧
    CCSDS_RD_APID (priOfBuf
      (CCSDS_BuildTelecommand true false (List.replicate 18 0) 18 421 0 10 false
        [67, 77, 68, 95, 83, 69, 81, 95, 48, 0] 10).1) = 421 ∧
    CCSDS_RD_SEQ (priOfBuf
      (CCSDS_BuildTelecommand true false (List.replicate 18 0) 18 421 0 10 false
        [67, 77, 68, 95, 83, 69, 81, 95, 48, 0] 10).1) = 0 ∧
    CCSDS_RD_FC (secOfBuf true
      (CCSDS_BuildTelecommand true false (List.replicate 18 0) 18 421 0 10 false
        [67, 77, 68, 95, 83, 69, 81, 95, 48, 0] 10).1) = 10 ∧
    (((CCSDS_BuildTelecommand true false (List.replicate 18 0) 18 421 0 10 false
        [67, 77, 68, 95, 83, 69, 81, 95, 48, 0] 10).1).drop 8).take 10
      = [67, 77, 68, 95, 83, 69, 81, 95, 48, 0] :=
  build_roundTrip true (List.replicate 18 0) [67, 77, 68, 95, 83, 69, 81, 95, 48, 0]
    18 421 0 10 10 (by decide) (by decide) (by decide) (by decide) (by decide)
    (by decide) (by decide) (by decide) (by decide)

/-- Counterexample to claim C2 as stated.  First part: in a built packet
    whose last payload byte is 1, flipping bit 0 of byte 5 (the low Length
    byte, inside the declared-length range) shrinks the declared length from
    18 to 17 and the recomputed XOR still cancels, so `CCSDS_ValidCheckSum`
    stays true.  Second part: a command packet whose declared total length is
    65542 (wire Length word `0xFFFF`, which is `≥ 8`) is not validated by
    `CCSDS_LoadCheckSum`, because the 16-bit loop counter truncates 65542 to
    6 and the stored checksum byte lies outside the XOR range. -/
theorem checksum_bitflip_cex :
    (5 < CCSDS_RD_LEN (priOfBuf (CCSDS_BuildTelecommand true false
        (List.replicate 18 0) 18 0 0 0 false [0, 0, 0, 0, 0, 0, 0, 0, 0, 1] 10).1) ∧
      CCSDS_ValidCheckSum (flipBit (CCSDS_BuildTelecommand true false
        (List.replicate 18 0) 18 0 0 0 false [0, 0, 0, 0, 0, 0, 0, 0, 0, 1] 10).1 5 0)
        = true) ∧
    (CCSDS_RD_LEN (priOfBuf [0, 0, 0, 0, 255, 255, 0, 0]) = 65542 ∧
      8 ≤ CCSDS_RD_LEN (priOfBuf [0, 0, 0, 0, 255, 255, 0, 0]) ∧
      CCSDS_ValidCheckSum (CCSDS_LoadCheckSum true [0, 0, 0, 0, 255, 255, 0, 0])
        = false) := by
  decide

/-- Claim C2, amended.  For every command packet whose declared total length
    is at least 8 and at most 65535 (every packet produced by
    `CCSDS_BuildTelecommand` has declared length `8 + PayloadLen` in that
    range), the XOR of all declared-length bytes from seed `0xFF` is 0 after
    `CCSDS_LoadCheckSum`, so `CCSDS_ValidCheckSum` returns true; and
    flipping any single bit of any byte inside the declared-length range
    other than the two Length bytes (offsets 4 and 5) makes
    `CCSDS_ValidCheckSum` return false.  (As stated the claim fails when the
    flipped bit lies in the Length field, and for declared lengths above
    65535: see the counterexample.) -/
theorem checksum_self_reduction :
    (∀ (le : Bool) (buf : List Nat),
      8 ≤ buf.length → 8 ≤ CCSDS_RD_LEN (priOfBuf buf) →
      CCSDS_RD_LEN (priOfBuf buf) ≤ 65535 →
      (∀ i, i < CCSDS_RD_LEN (priOfBuf buf) → getB buf i < 256) →
      CCSDS_ValidCheckSum (CCSDS_LoadCheckSum le buf) = true) ∧
    (∀ (le : Bool) (buf pay : List Nat) (cap apid seq fc plen : Nat) (payNull : Bool),
      cap ≤ 65535 → 8 + plen ≤ cap → buf.length = cap → (∀ x ∈ buf, x < 256) →
      CCSDS_ValidCheckSum
        (CCSDS_BuildTelecommand le false buf cap apid seq fc payNull pay plen).1
        = true ∧
      (∀ i b, i < 8 + plen → i ≠ 4 → i ≠ 5 → b < 8 →
        CCSDS_ValidCheckSum (flipBit
          (CCSDS_BuildTelecommand le false buf cap apid seq fc payNull pay plen).1 i b)
          = false)) := by
  constructor
  · exact fun le buf h1 h2 h3 h4 => valid_loadCheckSum le buf h1 h2 h3 h4
  · intro le buf pay cap apid seq fc plen payNull hcap hfit hblen hbuf
    obtain ⟨hret, hlenO, h0, h1, h2, h3, h4, h5, hf, hclt, hpayr, hdlen, hblt, hvalid⟩ :=
      build_success_spec le buf cap apid seq fc payNull pay plen hcap hfit hblen
        (fun i _ _ => getB_lt_of_mem buf hbuf i)
    set O := (CCSDS_BuildTelecommand le false buf cap apid seq fc payNull pay plen).1
      with hO
    refine ⟨hvalid, ?_⟩
    intro i b hi hi4 hi5 hb
    have hcomp : CCSDS_ComputeCheckSum O = 0 := by
      dsimp only [CCSDS_ValidCheckSum] at hvalid
      simpa using hvalid
    have hx : xorBytes O (8 + plen) = 0 := by
      dsimp only [CCSDS_ComputeCheckSum] at hcomp
      rw [hdlen, Nat.mod_eq_of_lt (by omega)] at hcomp
      exact hcomp
    have hfl : CCSDS_ComputeCheckSum (flipBit O i b) = 1 <<< b := by
      dsimp only [CCSDS_ComputeCheckSum, flipBit]
      have hd4 : getB (O.set i (getB O i ^^^ 1 <<< b)) 4 = getB O 4 := by
        rw [getB_set, if_neg (by omega)]
      have hd5 : getB (O.set i (getB O i ^^^ 1 <<< b)) 5 = getB O 5 := by
        rw [getB_set, if_neg (by omega)]
      have hdf : CCSDS_RD_LEN (priOfBuf (O.set i (getB O i ^^^ 1 <<< b))) = 8 + plen := by
        rw [RD_LEN_arith]
        dsimp only [priOfBuf]
        rw [hd4, hd5, h4, h5]
        omega
      rw [hdf, Nat.mod_eq_of_lt (by omega)]
      rw [xorBytes_set O i (getB O i ^^^ 1 <<< b) (8 + plen) hi (by omega)]
      rw [hx, Nat.zero_xor, ← Nat.xor_assoc, Nat.xor_self, Nat.zero_xor]
    dsimp only [CCSDS_ValidCheckSum]
    rw [hfl]
    have ht : 1 <<< b ≠ 0 := by
      rw [Nat.shiftLeft_eq]
      have := Nat.pos_pow_of_pos b (show 0 < 2 by omega)
      omega
    exact beq_eq_false_iff_ne.mpr ht

/-- Witness for `checksum_self_reduction`: the scenario-A packet validates,
    and flipping bit 0 of payload byte 9 (offset 17) invalidates it. -/
theorem checksum_self_reduction_witness :
    CCSDS_ValidCheckSum (CCSDS_BuildTelecommand true false (List.replicate 18 0) 18
      421 0 10 false [67, 77, 68, 95, 83, 69, 81, 95, 48, 0] 10).1 = true ∧
    CCSDS_ValidCheckSum (flipBit (CCSDS_BuildTelecommand true false
      (List.replicate 18 0) 18 421 0 10 false
      [67, 77, 68, 95, 83, 69, 81, 95, 48, 0] 10).1 17 0) = false ∧
    CCSDS_ValidCheckSum (CCSDS_LoadCheckSum true
      [1, 2, 3, 4, 0, 11, 5, 6, 7, 8, 9, 10, 11, 12, 13, 14, 15, 16]) = true :=
  ⟨(checksum_self_reduction.2 true (List.replicate 18 0)
      [67, 77, 68, 95, 83, 69, 81, 95, 48, 0] 18 421 0 10 10 false
      (by decide) (by decide) (by decide) (by decide)).1,
   (checksum_self_reduction.2 true (List.replicate 18 0)
      [67, 77, 68, 95, 83, 69, 81, 95, 48, 0] 18 421 0 10 10 false
      (by decide) (by decide) (by decide) (by decide)).2 17 0
      (by decide) (by decide) (by decide) (by decide),
   checksum_self_reduction.1 true
      [1, 2, 3, 4, 0, 11, 5, 6, 7, 8, 9, 10, 11, 12, 13, 14, 15, 16]
      (by decide) (by decide) (by decide) (by decide)⟩

/-- Claim C9.  With a non-NULL buffer of sufficient capacity, calling
    `CCSDS_BuildTelecommand` with a NULL `Payload` (modelled by
    `payNull = true`) and `PayloadLen > 0` is not rejected: it returns
    `8 + PayloadLen`, skips the payload copy so the payload region keeps the
    pre-existing buffer bytes, and the checksum is computed over those
    bytes, so the packet passes `CCSDS_ValidCheckSum`. -/
theorem build_null_payload (le : Bool) (buf : List Nat) (cap apid seq fc plen : Nat)
    (hp : 0 < plen) (hcap : cap ≤ 65535) (hfit : 8 + plen ≤ cap)
    (hblen : buf.length = cap) (hbuf : ∀ x ∈ buf, x < 256) :
    (CCSDS_BuildTelecommand le false buf cap apid seq fc true [] plen).2
      = 8 + plen ∧
    (∀ i, 8 ≤ i → i < 8 + plen →
      getB (CCSDS_BuildTelecommand le false buf cap apid seq fc true [] plen).1 i
        = getB buf i) ∧
    CCSDS_ValidCheckSum
      (CCSDS_BuildTelecommand le false buf cap apid seq fc true [] plen).1 = true := by
  obtain ⟨hret, hlenO, h0, h1, h2, h3, h4, h5, hf, hclt, hpayr, hdlen, hblt, hvalid⟩ :=
    build_success_spec le buf cap apid seq fc true [] plen hcap hfit hblen
      (fun i _ _ => getB_lt_of_mem buf hbuf i)
  refine ⟨hret, ?_, hvalid⟩
  intro i h8 hlt
  rw [hpayr i h8 hlt, if_neg (by simp)]

/-- Witness for `build_null_payload`: a 12-byte buffer with pre-existing
    payload bytes `[1, 2, 3, 4]` at offsets 8-11. -/
theorem build_null_payload_witness :
    (CCSDS_BuildTelecommand true false [9, 9, 9, 9, 9, 9, 9, 9, 1, 2, 3, 4]
      12 5 7 3 true [] 4).2 = 8 + 4 ∧
    getB (CCSDS_BuildTelecommand true false [9, 9, 9, 9, 9, 9, 9, 9, 1, 2, 3, 4]
      12 5 7 3 true [] 4).1 9 = getB [9, 9, 9, 9, 9, 9, 9, 9, 1, 2, 3, 4] 9 ∧
    CCSDS_ValidCheckSum
      (CCSDS_BuildTelecommand true false [9, 9, 9, 9, 9, 9, 9, 9, 1, 2, 3, 4]
        12 5 7 3 true [] 4).1 = true :=
  ⟨(build_null_payload true [9, 9, 9, 9, 9, 9, 9, 9, 1, 2, 3, 4] 12 5 7 3 4
      (by decide) (by decide) (by decide) (by decide) (by decide)).1,
   (build_null_payload true [9, 9, 9, 9, 9, 9, 9, 9, 1, 2, 3, 4] 12 5 7 3 4
      (by decide) (by decide) (by decide) (by decide) (by decide)).2.1 9
      (by decide) (by decide),
   (build_null_payload true [9, 9, 9, 9, 9, 9, 9, 9, 1, 2, 3, 4] 12 5 7 3 4
      (by decide) (by decide) (by decide) (by decide) (by decide)).2.2⟩

/-- Claim C10.  When the declared total length read by `CCSDS_RD_LEN`
    exceeds 65535 (wire Length word above 65528), `CCSDS_ComputeCheckSum`
    truncates it modulo 2^16 in its 16-bit `PktLen` counter and XORs only
    `declared - 65536` bytes, which is at most 6; in particular a Length
    word of `0xFFFF` (declared total 65542) XORs exactly the first 6 bytes. -/
theorem checksum_len_truncation (buf : List Nat)
    (h4 : getB buf 4 < 256) (h5 : getB buf 5 < 256)
    (hbig : 65536 ≤ CCSDS_RD_LEN (priOfBuf buf)) :
    CCSDS_ComputeCheckSum buf = xorBytes buf (CCSDS_RD_LEN (priOfBuf buf) - 65536) ∧
    CCSDS_RD_LEN (priOfBuf buf) - 65536 ≤ 6 ∧
    (getB buf 4 = 255 → getB buf 5 = 255 → CCSDS_ComputeCheckSum buf = xorBytes buf 6) := by
  have hval : CCSDS_RD_LEN (priOfBuf buf) = getB buf 4 * 256 + getB buf 5 + 7 := by
    rw [RD_LEN_arith]
    dsimp only [priOfBuf]
  refine ⟨?_, ?_, ?_⟩
  · dsimp only [CCSDS_ComputeCheckSum]
    rw [show CCSDS_RD_LEN (priOfBuf buf) % 65536 = CCSDS_RD_LEN (priOfBuf buf) - 65536 by
      rw [hval] at hbig ⊢; omega]
  · rw [hval] at hbig ⊢
    omega
  · intro e4 e5
    dsimp only [CCSDS_ComputeCheckSum]
    rw [show CCSDS_RD_LEN (priOfBuf buf) % 65536 = 6 by
      rw [hval, e4, e5]]

/-- Witness for `checksum_len_truncation` at a concrete 8-byte buffer with
    wire Length word `0xFFFF`. -/
theorem checksum_len_truncation_witness :
    CCSDS_ComputeCheckSum [1, 2, 3, 4, 255, 255, 7, 8]
      = xorBytes [1, 2, 3, 4, 255, 255, 7, 8]
          (CCSDS_RD_LEN (priOfBuf [1, 2, 3, 4, 255, 255, 7, 8]) - 65536) ∧
    CCSDS_ComputeCheckSum [1, 2, 3, 4, 255, 255, 7, 8]
      = xorBytes [1, 2, 3, 4, 255, 255, 7, 8] 6 :=
  ⟨(checksum_len_truncation [1, 2, 3, 4, 255, 255, 7, 8]
      (by decide) (by decide) (by decide)).1,
   (checksum_len_truncation [1, 2, 3, 4, 255, 255, 7, 8]
      (by decide) (by decide) (by decide)).2.2 (by decide) (by decide)⟩

/-- Counterexample to claim C7 as stated: in the scenario-A packet
    (apid `0x1A5`, seq 0, function code `0x0A`, 10-byte payload
    "CMD_SEQ_0\0"), byte 0 is not `0x01`. -/
theorem scenarioA_byte0_cex :
    getB (CCSDS_BuildTelecommand true false (List.replicate 18 0) 18 421 0 10 false
      [67, 77, 68, 95, 83, 69, 81, 95, 48, 0] 10).1 0 ≠ 0x01 := by
  decide

/-- Claim C7, amended.  Building with apid `0x1A5`, seqCount 0, function
    code `0x0A` and the 10-byte payload "CMD_SEQ_0\0" returns total length
    18, produces byte 0 equal to `0x19` (version 0, type 1, secondary-header
    flag 1, apid high bits `0b001`), and bytes 4-5 encode the wire Length
    value `18 - 7 = 11`, on either host byte order. -/
theorem scenarioA :
    ∀ le : Bool,
      (CCSDS_BuildTelecommand le false (List.replicate 18 0) 18 421 0 10 false
        [67, 77, 68, 95, 83, 69, 81, 95, 48, 0] 10).2 = 18 ∧
      getB (CCSDS_BuildTelecommand le false (List.replicate 18 0) 18 421 0 10 false
        [67, 77, 68, 95, 83, 69, 81, 95, 48, 0] 10).1 0 = 0x19 ∧
      getB (CCSDS_BuildTelecommand le false (List.replicate 18 0) 18 421 0 10 false
        [67, 77, 68, 95, 83, 69, 81, 95, 48, 0] 10).1 4 = 0 ∧
      getB (CCSDS_BuildTelecommand le false (List.replicate 18 0) 18 421 0 10 false
        [67, 77, 68, 95, 83, 69, 81, 95, 48, 0] 10).1 5 = 11 := by
  intro le
  cases le <;> exact ⟨by decide, by decide, by decide, by decide⟩

/-- Claim C3 is violated by the code: the serialized bytes of a built
    telecommand depend on the host byte order.  The primary header (bytes
    0-5) is written byte by byte and is host independent, but the command
    secondary header is a single `uint16 Command` stored in host order, so
    on a little-endian host byte 6 holds the checksum and byte 7 the
    function code, while on a big-endian host byte 6 holds the function
    code and byte 7 the checksum — contradicting the claim (and the header
    comments of ccsds.h, which promise big-endian order regardless of
    architecture).  For the scenario-A packet the function-code byte is
    `0x0A` and the checksum byte `0xBF`. -/
theorem cmdSecHdr_host_dependent :
    (CCSDS_BuildTelecommand true false (List.replicate 18 0) 18 421 0 10 false
      [67, 77, 68, 95, 83, 69, 81, 95, 48, 0] 10).1 ≠
    (CCSDS_BuildTelecommand false false (List.replicate 18 0) 18 421 0 10 false
      [67, 77, 68, 95, 83, 69, 81, 95, 48, 0] 10).1 ∧
    getB (CCSDS_BuildTelecommand true false (List.replicate 18 0) 18 421 0 10 false
      [67, 77, 68, 95, 83, 69, 81, 95, 48, 0] 10).1 6 = 0xBF ∧
    getB (CCSDS_BuildTelecommand true false (List.replicate 18 0) 18 421 0 10 false
      [67, 77, 68, 95, 83, 69, 81, 95, 48, 0] 10).1 7 = 0x0A ∧
    getB (CCSDS_BuildTelecommand false false (List.replicate 18 0) 18 421 0 10 false
      [67, 77, 68, 95, 83, 69, 81, 95, 48, 0] 10).1 6 = 0x0A ∧
    getB (CCSDS_BuildTelecommand false false (List.replicate 18 0) 18 421 0 10 false
      [67, 77, 68, 95, 83, 69, 81, 95, 48, 0] 10).1 7 = 0xBF := by
  refine ⟨by decide, by decide, by decide, by decide, by decide⟩
